import Mathlib

/-!
Verification of the job-description / interview-evaluation pipeline.

This file gives a shallow embedding of the Python source files of the
repository (the evaluation module and the job-description transformers)
and proves or refutes the specification claims about them.

Conventions used throughout:
* Python strings are modelled as `String` / `List Char`; the helpers in the
  first section reproduce the exact semantics of the Python string and
  `re` operations used by the source (left-to-right non-overlapping
  replacement, Python `str.strip` whitespace, anchored regex prefixes, ...).
* Python JSON-like values (nested dict/list/str/int/bool/None trees) are
  modelled by `JVal`.
* Fallible code (Python exceptions) is modelled with `Option` / `Except`.
* External collaborators (the completion endpoint, the database) are
  modelled as explicit parameters: a response oracle, or the row lists the
  client calls would return.
-/

set_option maxHeartbeats 4000000 in
set_option maxHeartbeats 8000000 in
/-- Python whitespace for `str.strip` / `\s` : space, tab, newline,
carriage return, vertical tab (0x0b) and form feed (0x0c). -/
def isPyWs (c : Char) : Bool :=
  c = ' ' || c = '\t' || c = '\n' || c = '\x0d' || c = '\x0b' || c = '\x0c'

/-- Python `str.strip()` on a character list. -/
def pyStripList (l : List Char) : List Char :=
  ((l.dropWhile isPyWs).reverse.dropWhile isPyWs).reverse

/-- Python `str.strip()`. -/
def pyStrip (s : String) : String :=
  String.mk (pyStripList s.data)

/-- ASCII lower-casing of a character (the source only manipulates ASCII
field names and tokens). -/
def asciiLower (c : Char) : Char :=
  if 'A' ≤ c ∧ c ≤ 'Z' then Char.ofNat (c.toNat + 32) else c

/-- ASCII upper-casing of a character. -/
def asciiUpper (c : Char) : Char :=
  if 'a' ≤ c ∧ c ≤ 'z' then Char.ofNat (c.toNat - 32) else c

/-- Python `str.lower()` (ASCII fragment). -/
def pyLower (s : String) : String := String.mk (s.data.map asciiLower)

/-- Python `str.upper()` (ASCII fragment). -/
def pyUpper (s : String) : String := String.mk (s.data.map asciiUpper)

/-- Substring occurrence test, Python `pat in s` on character lists
(`[] ∈ s` is true, as in Python). -/
def occursIn (pat : List Char) : List Char → Bool
  | [] => pat.isPrefixOf []
  | c :: rest => pat.isPrefixOf (c :: rest) || occursIn pat rest

/-- Python `pat in s` on strings. -/
def strContains (s pat : String) : Bool := occursIn pat.data s.data

/-- Python `str.replace(pat, rep)`: left-to-right, non-overlapping
replacement of every occurrence.  `pat` is passed with an explicit head so
that it is never empty (all patterns in the source are non-empty). -/
def replaceAllAux (p : Char) (ps rep : List Char) : List Char → List Char
  | [] => []
  | c :: cs =>
    if (p :: ps).isPrefixOf (c :: cs) then
      rep ++ replaceAllAux p ps rep (cs.drop ps.length)
    else
      c :: replaceAllAux p ps rep cs
termination_by l => l.length
decreasing_by
  · simp only [List.length_drop, List.length_cons]
    omega
  · simp only [List.length_cons]
    omega

/-- `str.replace` wrapper on lists; empty pattern is never used by the
source, it is mapped to the identity. -/
def replaceAll (pat rep : List Char) (s : List Char) : List Char :=
  match pat with
  | [] => s
  | p :: ps => replaceAllAux p ps rep s

/-- Split a character list at every occurrence of a separator character,
Python `str.split(sep)` with a one-character separator (keeps empty
pieces). -/
def splitOnChar (sep : Char) (l : List Char) : List (List Char) :=
  match l with
  | [] => [[]]
  | c :: rest =>
    let r := splitOnChar sep rest
    if c = sep then [] :: r
    else
      match r with
      | [] => [[c]]
      | piece :: more => (c :: piece) :: more

/-- First run of decimal digits in a list, Python `re.search(r'(\d+)', s)`:
the leftmost maximal digit run, `none` when there is no digit. -/
def firstDigitRun : List Char → Option (List Char)
  | [] => none
  | c :: rest =>
    if c.isDigit then some (c :: rest.takeWhile Char.isDigit)
    else firstDigitRun rest

/-- Digits of a decimal literal interpreted as a natural number. -/
def digitsToNat (l : List Char) : Nat :=
  l.foldl (fun acc c => acc * 10 + (c.toNat - '0'.toNat)) 0

/-- Python `int(s)` on a string: optional sign after stripped whitespace,
then at least one digit and nothing else; `none` models `ValueError`. -/
def pyInt (s : String) : Option Int :=
  let l := pyStripList s.data
  let (sign, digits) :=
    match l with
    | '-' :: rest => ((-1 : Int), rest)
    | '+' :: rest => ((1 : Int), rest)
    | rest => ((1 : Int), rest)
  if digits ≠ [] ∧ digits.all Char.isDigit then
    some (sign * (digitsToNat digits : Int))
  else
    none

/-!
## `JVal`: Python JSON-like values

Dicts are insertion-ordered association lists, as CPython dicts are.
-/

/-- A Python value as produced by `json.loads`: `None`, `bool`, `int`,
`str`, `list`, `dict`.  (The templates in this repository only carry
integer numerals, so numbers are modelled by `Int`.) -/
inductive JVal where
  | null : JVal
  | bool (b : Bool) : JVal
  | num (n : Int) : JVal
  | str (s : String) : JVal
  | arr (elems : List JVal) : JVal
  | obj (entries : List (String × JVal)) : JVal

/-- Dict lookup (first binding wins, CPython dicts have unique keys). -/
def dictGet (entries : List (String × JVal)) (k : String) : Option JVal :=
  match entries with
  | [] => none
  | (k', v) :: rest => if k' = k then some v else dictGet rest k

/-- Dict update: overwrite in place if the key exists (keeping its
position, as CPython does), otherwise append. -/
def dictSet (entries : List (String × JVal)) (k : String) (v : JVal) :
    List (String × JVal) :=
  match entries with
  | [] => [(k, v)]
  | (k', v') :: rest =>
    if k' = k then (k', v) :: rest else (k', v') :: dictSet rest k v

mutual

/-- Decidable structural equality for `JVal` (the `deriving` handler does
not support this nested inductive). -/
def jvalDecEq : (a b : JVal) → Decidable (a = b)
  | .null, .null => isTrue rfl
  | .null, .bool _ => isFalse (by simp)
  | .null, .num _ => isFalse (by simp)
  | .null, .str _ => isFalse (by simp)
  | .null, .arr _ => isFalse (by simp)
  | .null, .obj _ => isFalse (by simp)
  | .bool _, .null => isFalse (by simp)
  | .bool a, .bool b =>
    match decEq a b with
    | isTrue h => isTrue (by rw [h])
    | isFalse h => isFalse (by intro hh; injection hh with h2; exact h h2)
  | .bool _, .num _ => isFalse (by simp)
  | .bool _, .str _ => isFalse (by simp)
  | .bool _, .arr _ => isFalse (by simp)
  | .bool _, .obj _ => isFalse (by simp)
  | .num _, .null => isFalse (by simp)
  | .num _, .bool _ => isFalse (by simp)
  | .num a, .num b =>
    match decEq a b with
    | isTrue h => isTrue (by rw [h])
    | isFalse h => isFalse (by intro hh; injection hh with h2; exact h h2)
  | .num _, .str _ => isFalse (by simp)
  | .num _, .arr _ => isFalse (by simp)
  | .num _, .obj _ => isFalse (by simp)
  | .str _, .null => isFalse (by simp)
  | .str _, .bool _ => isFalse (by simp)
  | .str _, .num _ => isFalse (by simp)
  | .str a, .str b =>
    match decEq a b with
    | isTrue h => isTrue (by rw [h])
    | isFalse h => isFalse (by intro hh; injection hh with h2; exact h h2)
  | .str _, .arr _ => isFalse (by simp)
  | .str _, .obj _ => isFalse (by simp)
  | .arr _, .null => isFalse (by simp)
  | .arr _, .bool _ => isFalse (by simp)
  | .arr _, .num _ => isFalse (by simp)
  | .arr _, .str _ => isFalse (by simp)
  | .arr xs, .arr ys =>
    match jvalDecEqList xs ys with
    | isTrue h => isTrue (by rw [h])
    | isFalse h => isFalse (by intro hh; injection hh with h2; exact h h2)
  | .arr _, .obj _ => isFalse (by simp)
  | .obj _, .null => isFalse (by simp)
  | .obj _, .bool _ => isFalse (by simp)
  | .obj _, .num _ => isFalse (by simp)
  | .obj _, .str _ => isFalse (by simp)
  | .obj _, .arr _ => isFalse (by simp)
  | .obj xs, .obj ys =>
    match jvalDecEqEntries xs ys with
    | isTrue h => isTrue (by rw [h])
    | isFalse h => isFalse (by intro hh; injection hh with h2; exact h h2)

/-- Decidable equality on value lists. -/
def jvalDecEqList : (xs ys : List JVal) → Decidable (xs = ys)
  | [], [] => isTrue rfl
  | [], _ :: _ => isFalse (by simp)
  | _ :: _, [] => isFalse (by simp)
  | x :: xs, y :: ys =>
    match jvalDecEq x y with
    | isFalse h1 => isFalse (by intro hh; injection hh with ha hb; exact h1 ha)
    | isTrue h1 =>
      match jvalDecEqList xs ys with
      | isTrue h2 => isTrue (by rw [h1, h2])
      | isFalse h2 => isFalse (by intro hh; injection hh with ha hb; exact h2 hb)

/-- Decidable equality on entry lists. -/
def jvalDecEqEntries : (xs ys : List (String × JVal)) → Decidable (xs = ys)
  | [], [] => isTrue rfl
  | [], _ :: _ => isFalse (by simp)
  | _ :: _, [] => isFalse (by simp)
  | (k, v) :: xs, (k2, v2) :: ys =>
    match decEq k k2 with
    | isFalse h1 => isFalse (by
        intro hh; injection hh with ha hb; injection ha with hk hv; exact h1 hk)
    | isTrue h1 =>
      match jvalDecEq v v2 with
      | isFalse h2 => isFalse (by
          intro hh; injection hh with ha hb; injection ha with hk hv; exact h2 hv)
      | isTrue h2 =>
        match jvalDecEqEntries xs ys with
        | isTrue h3 => isTrue (by rw [h1, h2, h3])
        | isFalse h3 => isFalse (by intro hh; injection hh with ha hb; exact h3 hb)

end

instance : DecidableEq JVal := jvalDecEq

/-- Python truthiness of a value (`if value:`). -/
def pyTruthy : JVal → Bool
  | .null => false
  | .bool b => b
  | .num n => decide (n ≠ 0)
  | .str s => decide (s ≠ "")
  | .arr xs => !xs.isEmpty
  | .obj kvs => !kvs.isEmpty

/-- Python truthiness of an optional value: `None` is falsy. -/
def pyTruthyOpt : Option JVal → Bool
  | none => false
  | some v => pyTruthy v

mutual

/-- Python `==` on values.  `True == 1` and `False == 0` hold in Python
(`bool` is a subclass of `int`); dict equality compares key sets, hence is
order-insensitive. -/
def pyEq : JVal → JVal → Bool
  | .null, .null => true
  | .bool a, .bool b => a = b
  | .num a, .num b => a = b
  | .bool a, .num b => (if a then (1 : Int) else 0) = b
  | .num a, .bool b => a = (if b then (1 : Int) else 0)
  | .str a, .str b => a = b
  | .arr a, .arr b => pyEqList a b
  | .obj a, .obj b => a.length = b.length && pyEqObjSub a b
  | _, _ => false

/-- Elementwise Python `==` on lists. -/
def pyEqList : List JVal → List JVal → Bool
  | [], [] => true
  | x :: xs, y :: ys => pyEq x y && pyEqList xs ys
  | _, _ => false

/-- Every entry of the first dict matches in the second. -/
def pyEqObjSub : List (String × JVal) → List (String × JVal) → Bool
  | [], _ => true
  | (k, v) :: rest, b =>
    (match dictGet b k with
     | some w => pyEq v w
     | none => false) && pyEqObjSub rest b

end

/-- Brace characters, named to keep them out of string literals. -/
def braceOpen : Char := Char.ofNat 123

/-- Closing brace character. -/
def braceClose : Char := Char.ofNat 125

/-- The single-quote character. -/
def squoteChar : Char := Char.ofNat 39

/-- Dotted path → key list, Python `path.split('.')`. -/
def pathKeys (path : String) : List String :=
  (splitOnChar '.' path.data).map String.mk

/-- `get_nested_value(data, path)` from `Job_Transformer_Supabase_v1.2.py`:
walk the keys, returning `None` on any `KeyError`/`TypeError` (subscripting
a non-dict). -/
def getNested (v : JVal) : List String → Option JVal
  | [] => some v
  | k :: rest =>
    match v with
    | .obj kvs =>
      match dictGet kvs k with
      | some child => getNested child rest
      | none => none
    | _ => none

/-- `current_value is None` for the result of `get_nested_value`: both a
raised lookup (modelled by `none`) and a stored JSON `null` are the Python
object `None`. -/
def isNoneLike : Option JVal → Bool
  | none => true
  | some .null => true
  | some _ => false

/-- `set_nested_value(data, path, value)`: walk the keys, creating `{}` at
missing intermediate keys; traversing or writing through a non-dict raises
(`TypeError`), modelled by `none`. -/
def setNested (v : JVal) (keys : List String) (newVal : JVal) : Option JVal :=
  match keys with
  | [] => none
  | [k] =>
    match v with
    | .obj kvs => some (.obj (dictSet kvs k newVal))
    | _ => none
  | k :: rest =>
    match v with
    | .obj kvs =>
      let child := (dictGet kvs k).getD (.obj [])
      match setNested child rest newVal with
      | some c => some (.obj (dictSet kvs k c))
      | none => none
    | _ => none

mutual

/-- The leaves of a tree with their paths, in insertion order: paths run
through dict keys only, any non-dict value is a leaf (lists are leaves
wholesale, and an empty dict contributes no leaf). -/
def leafValues : JVal → List (List String × JVal)
  | .obj kvs => leafValuesEntries kvs
  | v => [([], v)]

/-- Leaf path/value pairs contributed by a dict's entries. -/
def leafValuesEntries : List (String × JVal) → List (List String × JVal)
  | [] => []
  | (k, v) :: rest =>
    (leafValues v).map (fun p => (k :: p.1, p.2)) ++ leafValuesEntries rest

end

/-- The set of leaf paths of a template tree. -/
def leafPaths (t : JVal) : List (List String) := (leafValues t).map (·.1)

/-- Python `repr` of a `str`: single quotes unless the string contains a
single quote and no double quote; backslash and common control characters
escaped. -/
def pyReprStr (s : String) : String :=
  let esc := fun (q : Char) (body : List Char) =>
    body.foldr (fun c acc =>
      (if c = '\\' then ['\\', '\\']
       else if c = '\n' then ['\\', 'n']
       else if c = '\x0d' then ['\\', 'r']
       else if c = '\t' then ['\\', 't']
       else if c = q then ['\\', q]
       else [c]) ++ acc) []
  if s.data.contains squoteChar ∧ ¬ s.data.contains '"' then
    "\"" ++ String.mk (esc '"' s.data) ++ "\""
  else
    String.mk [squoteChar] ++ String.mk (esc squoteChar s.data) ++
      String.mk [squoteChar]

mutual

/-- Python `repr` of a value (the format `str(obj)` uses for dicts and
lists). -/
def pyRepr : JVal → String
  | .null => "None"
  | .bool b => if b then "True" else "False"
  | .num n => toString n
  | .str s => pyReprStr s
  | .arr xs => "[" ++ pyReprList xs ++ "]"
  | .obj kvs => String.mk [braceOpen] ++ pyReprEntries kvs ++ String.mk [braceClose]

/-- Comma-separated reprs of list elements. -/
def pyReprList : List JVal → String
  | [] => ""
  | [x] => pyRepr x
  | x :: rest => pyRepr x ++ ", " ++ pyReprList rest

/-- Comma-separated `key: value` reprs of dict entries. -/
def pyReprEntries : List (String × JVal) → String
  | [] => ""
  | [(k, v)] => pyReprStr k ++ ": " ++ pyRepr v
  | (k, v) :: rest => pyReprStr k ++ ": " ++ pyRepr v ++ ", " ++ pyReprEntries rest

end

/-- Python `str()` of a value (`str` of a string is the string itself,
everything else falls back to `repr`). -/
def pyStr : JVal → String
  | .str s => s
  | v => pyRepr v

/-!
## `Evaluation_Module_V1.0.py`
-/

/-- The scan loop of `_extract_first_complete_json`: `count` is
`brace_count` (an `Int`: a stray closing brace before the first opening one
drives it negative, exactly as in the source), `started` is
`start_idx != -1`, and `acc` accumulates the characters of the slice
`text[start_idx:i+1]` that the source returns. -/
def jsonScanAux : List Char → Int → Bool → List Char → Option (List Char)
  | [], _, _, _ => none
  | c :: rest, count, started, acc =>
    if c = braceOpen then
      jsonScanAux rest (count + 1) true (if started then acc ++ [c] else [c])
    else if c = braceClose then
      if count - 1 = 0 ∧ started then some (acc ++ [c])
      else jsonScanAux rest (count - 1) started (if started then acc ++ [c] else acc)
    else
      jsonScanAux rest count started (if started then acc ++ [c] else acc)

/-- `_extract_first_complete_json(text)`: first complete brace-balanced
object of the text, the empty string when none is found. -/
def extractFirstCompleteJson (text : String) : String :=
  match jsonScanAux text.data 0 false [] with
  | some l => String.mk l
  | none => ""

/-- Net brace depth of a character list. -/
def braceDepth (l : List Char) : Int :=
  (l.count braceOpen : Int) - (l.count braceClose : Int)

/-- The trailing-comma fix of `_clean_json_response`:
`re.sub(r',(\s*[}\]])', r'\1', ...)` — every comma followed by optional
whitespace and a closing brace/bracket is dropped (left to right,
non-overlapping, resuming after the closer). -/
def removeTrailingCommas : List Char → List Char
  | [] => []
  | c :: cs =>
    if c = ',' then
      match h : cs.dropWhile isPyWs with
      | b :: rest' =>
        if b = braceClose ∨ b = ']' then
          cs.takeWhile isPyWs ++ [b] ++ removeTrailingCommas rest'
        else
          ',' :: removeTrailingCommas cs
      | [] => ',' :: removeTrailingCommas cs
    else
      c :: removeTrailingCommas cs
termination_by l => l.length
decreasing_by
  · have h1 : (List.dropWhile isPyWs rest).length ≤ rest.length :=
      (List.dropWhile_sublist isPyWs).length_le
    rw [h] at h1
    simp only [List.length_cons] at h1 ⊢
    omega
  · simp only [List.length_cons]; omega
  · simp only [List.length_cons]; omega
  · simp only [List.length_cons]; omega

/-- Does the text contain a trailing-comma pattern (`,` + whitespace + `}`
or `]`), i.e. a match of the sub above? -/
def hasTrailingComma : List Char → Bool
  | [] => false
  | c :: cs =>
    (c = ',' &&
      (match cs.dropWhile isPyWs with
       | b :: _ => b = braceClose || b = ']'
       | [] => false)) ||
    hasTrailingComma cs

/-- `_clean_json_response(json_content)`: the `N/A` token replacements, the
newline/carriage-return collapse and the trailing-comma fix, applied in
source order.  (The source wraps the body in `try/except`, but no step can
raise.) -/
def cleanJsonResponse (jsonContent : String) : String :=
  let s1 := replaceAll ("\"N/A\"".data) ("null".data) jsonContent.data
  let s2 := replaceAll (squoteChar :: 'N' :: '/' :: 'A' :: [squoteChar]) ("null".data) s1
  let s3 := replaceAll (": N/A".data) (": null".data) s2
  let s4 := replaceAll (":N/A".data) (": null".data) s3
  let s5 := replaceAll ['\n'] [' '] s4
  let s6 := replaceAll ['\x0d'] [' '] s5
  String.mk (removeTrailingCommas s6)

/-- The per-character effect of the two whitespace replacements of
`_clean_json_response` (`.replace('\n', ' ').replace('\r', ' ')`). -/
def nlToSpace (c : Char) : Char :=
  if c = '\n' then ' ' else if c = '\x0d' then ' ' else c

/-- Role-key aliases tried, in order, by `extract_conversation_data`. -/
def convRoleKeys : List String := ["role", "speaker", "type"]

/-- Content-key aliases tried, in order, by `extract_conversation_data`. -/
def convMessageKeys : List String := ["message", "content", "text", "response"]

/-- The conversation-key aliases tried, in order, on a dict input. -/
def convAliasKeys : List String :=
  ["conversation", "chat_history", "messages", "qa_pairs", "dialogue",
   "conversation_history"]

/-- Standardize one exchange dict: resolve the role from the first present
role alias and the content from the first present message alias; an
exchange missing either is dropped (`none`). -/
def standardizeExchange (kvs : List (String × JVal)) : Option JVal :=
  match convRoleKeys.findSome? (dictGet kvs),
        convMessageKeys.findSome? (dictGet kvs) with
  | some r, some m => some (.obj [("role", r), ("content", m)])
  | _, _ => none

/-- Standardize a raw conversation list: non-dict entries and incomplete
exchanges are dropped, order is preserved. -/
def standardizeList (raw : List JVal) : List JVal :=
  raw.filterMap (fun x =>
    match x with
    | .obj kvs => standardizeExchange kvs
    | _ => none)

/-- Python `key in container`: dict key membership, list element
membership, substring test on strings; `none` models the `TypeError` of
`in` on an `int`/`None` (caught by the caller's `except`). -/
def pyInOp (container : JVal) (key : String) : Option Bool :=
  match container with
  | .obj kvs => some (dictGet kvs key).isSome
  | .arr xs => some (xs.any (fun x => pyEq x (.str key)))
  | .str s => some (strContains s key)
  | _ => none

/-- `questions`/`answers` zipped into alternating assistant/user turns. -/
def zipQA (qs answers : List JVal) : List JVal :=
  (qs.zip answers).flatMap (fun p =>
    [.obj [("role", .str "assistant"), ("content", .str (pyStr p.1))],
     .obj [("role", .str "user"), ("content", .str (pyStr p.2))]])

/-- Body of `extract_conversation_data`; `none` models an exception inside
the `try` block (the caller returns `[]` in that case). -/
def extractConversationGo (si : JVal) : Option (List JVal) :=
  match si with
  | .arr (first :: _) =>
    -- `isinstance(session_information, list) and session_information`
    match first with
    | .obj kvs =>
      match dictGet kvs "session_data" with
      | some sd => do
        let hasCH ← pyInOp sd "conversation_history"
        if hasCH then
          match sd with
          | .obj sdkvs =>
            match dictGet sdkvs "conversation_history" with
            | some (.arr raw) => pure (standardizeList raw)
            | some _ => pure []      -- present but not a list
            | none => none           -- unreachable: `hasCH` was true
          | _ => none                -- `session_data['...']` on a non-dict raises
        else
          pure []
      | none => pure []              -- no 'session_data' key
    | _ => pure []                   -- first item is not a dict
  | .arr [] => pure []               -- empty list input: both branches skipped
  | .obj kvs =>
    -- first present alias key wins (the loop `break`s on it)
    let conv :=
      match convAliasKeys.find? (fun k => (dictGet kvs k).isSome) with
      | some k =>
        match dictGet kvs k with
        | some (.arr raw) => standardizeList raw
        | _ => []                    -- present but not a list
      | none => []
    if conv.isEmpty then
      match dictGet kvs "questions", dictGet kvs "answers" with
      | some (.arr qs), some (.arr answers) => pure (zipQA qs answers)
      | some _, some _ => pure []    -- present but not both lists
      | _, _ => pure []
    else
      pure conv
  | _ => pure []                     -- neither a list nor a dict

/-- `extract_conversation_data(session_information)`: reconstruct the
conversation, returning `[]` both when no shape applies and when the
`try` body raises. -/
def extractConversationData (si : JVal) : List JVal :=
  (extractConversationGo si).getD []

/-- `save_evaluation_report(session_id, report)`, with the database
modelled as an external collaborator (spec §6): the three row lists are
the `.data` fields of the session-existence check, the update call and the
read-back verification, in that order.  Transport exceptions are out of
scope here (the claim is about runs where none occurred). -/
def saveEvaluationReport (checkData updateData verifyData : List JVal) : Bool :=
  if checkData.isEmpty then
    false                            -- session not found
  else if !updateData.isEmpty then
    match verifyData with
    | row :: _ =>
      pyTruthyOpt (match row with
                   | .obj kvs => dictGet kvs "Interview_report"
                   | _ => none)
    | [] => false                    -- verification returned no row
  else
    false                            -- update returned no data

/-- `save_initial_json_to_db` of `Job_Transformer_Supabase_v1.0.py`: if the
client is initialized, the update result's `.data` is returned as-is —
there is no affected-rows check and no read-back verification; `.error`
models the raised exception when the client is missing. -/
def saveInitialJsonToDbV10 (clientInitialized : Bool)
    (updateData : List JVal) : Except String (List JVal) :=
  if !clientInitialized then
    .error "Supabase client not initialized"
  else
    .ok updateData

/-- Outcome of `evaluate_interview_session(session_id)` as the batch driver
observes it: a returned value (possibly `None`, modelled by `.null`), or a
raised exception. -/
inductive EvalOutcome where
  | returns (value : JVal) : EvalOutcome
  | raises : EvalOutcome

/-- Did the driver count this outcome as a success (`if evaluation:`)? -/
def evalSuccess (evalFn : String → EvalOutcome) (id : String) : Bool :=
  match evalFn id with
  | .returns v => pyTruthy v
  | .raises => false

/-- The value recorded for a successful evaluation. -/
def evalValue (evalFn : String → EvalOutcome) (id : String) : JVal :=
  match evalFn id with
  | .returns v => v
  | .raises => .null

/-- The tally record built by `batch_evaluate_sessions`. -/
structure BatchResults where
  successful : List (String × JVal)
  failed : List String
  totalProcessed : Nat
  successRate : ℚ

/-- One loop iteration of `batch_evaluate_sessions`: the per-item
`try/except` turns a raised exception into a failed entry. -/
def batchStep (evalFn : String → EvalOutcome)
    (acc : List (String × JVal) × List String) (id : String) :
    List (String × JVal) × List String :=
  match evalFn id with
  | .returns v =>
    if pyTruthy v then (acc.1 ++ [(id, v)], acc.2)
    else (acc.1, acc.2 ++ [id])
  | .raises => (acc.1, acc.2 ++ [id])

/-- `batch_evaluate_sessions(session_ids)`: sequential loop with per-item
exception capture, then the success-rate computation
`len(successful) / len(session_ids) * 100`, which raises
`ZeroDivisionError` (modelled by `.error`) when the id list is empty. -/
def batchEvaluateSessions (evalFn : String → EvalOutcome)
    (ids : List String) : Except String BatchResults :=
  let acc := ids.foldl (batchStep evalFn) ([], [])
  if ids.length = 0 then
    .error "ZeroDivisionError"
  else
    .ok { successful := acc.1
          failed := acc.2
          totalProcessed := ids.length
          successRate := ((acc.1.length : ℚ) / (ids.length : ℚ)) * 100 }

/-!
## Job Description Transformers
-/

/-- Case-insensitive literal match at the head of a list: returns the
remaining characters after the word, `none` when it does not match. -/
def matchWordCI (w : List Char) (l : List Char) : Option (List Char) :=
  match w, l with
  | [], rest => some rest
  | _ :: _, [] => none
  | cw :: wrest, c :: rest =>
    if asciiLower c = asciiLower cw then matchWordCI wrest rest else none

/-- Assoc-list update for string maps (CPython dict semantics). -/
def dictSetStr (entries : List (String × String)) (k v : String) :
    List (String × String) :=
  match entries with
  | [] => [(k, v)]
  | (k', v') :: rest =>
    if k' = k then (k', v) :: rest else (k', v') :: dictSetStr rest k v

/-- `re.sub(r'^(FIELD_NAME|Field|Key)\s*[-:]?\s*', '', name, flags=re.IGNORECASE)`
from `parse_llama_response`: anchored, so at most one replacement;
alternatives are tried in source order. -/
def stripFieldNameLabel (name : String) : String :=
  let alt :=
    match matchWordCI ("FIELD_NAME".data) name.data with
    | some r => some r
    | none =>
      match matchWordCI ("Field".data) name.data with
      | some r => some r
      | none => matchWordCI ("Key".data) name.data
  match alt with
  | some rest =>
    let r1 := rest.dropWhile isPyWs
    let r2 :=
      match r1 with
      | c :: more => if c = '-' ∨ c = ':' then more else r1
      | [] => r1
    String.mk (r2.dropWhile isPyWs)
  | none => name

/-- One iteration of `parse_llama_response`'s line loop: skip lines
without a colon, otherwise split once at the first colon, trim both
sides, strip an echoed field-name label, and store `OPEN` for an empty or
case-insensitive "open" value. -/
def parseLlamaLine (acc : List (String × String)) (lineRaw : List Char) :
    List (String × String) :=
  let line := pyStripList lineRaw
  if line.contains ':' then
    let namePart := line.takeWhile (· ≠ ':')
    let valuePart := (line.dropWhile (· ≠ ':')).drop 1
    let fieldName := stripFieldNameLabel (String.mk (pyStripList namePart))
    let v := String.mk (pyStripList valuePart)
    if v ≠ "" ∧ pyLower v ≠ "open" then dictSetStr acc fieldName v
    else dictSetStr acc fieldName "OPEN"
  else acc

/-- `parse_llama_response(llama_response)` (identical in
`Job_Transformer_Ollama_v1.0.py` and `Job_Transformer_Supabase_v1.0.py`):
strip, split on newlines, and fold the line parser over the lines. -/
def parseLlamaResponse (llamaResponse : String) : List (String × String) :=
  (splitOnChar '\n' (pyStripList llamaResponse.data)).foldl parseLlamaLine []

/-- `\d{1,3}(?:,\d{3})*(?:\.\d{2})?` at the head of the input, returning
(captured group, rest).  The greedy quantifiers are deterministic here:
whenever the regex engine would backtrack to fewer digits, the next
character is a digit, which no continuation of these patterns can match. -/
def matchNumGroup (l : List Char) : Option (List Char × List Char) :=
  let ds := l.takeWhile Char.isDigit
  if ds.isEmpty then none
  else
    let d := ds.take 3
    let rest := l.drop d.length
    let (commaPart, rest2) := matchCommaGroups rest
    match rest2 with
    | '.' :: a :: b :: rest3 =>
      if a.isDigit ∧ b.isDigit then some (d ++ commaPart ++ ['.', a, b], rest3)
      else some (d ++ commaPart, rest2)
    | _ => some (d ++ commaPart, rest2)
where
  /-- `(?:,\d{3})*`, greedy. -/
  matchCommaGroups : List Char → List Char × List Char
    | ',' :: a :: b :: c :: rest =>
      if a.isDigit ∧ b.isDigit ∧ c.isDigit then
        let (more, rest') := matchCommaGroups rest
        (',' :: a :: b :: c :: more, rest')
      else ([], ',' :: a :: b :: c :: rest)
    | other => ([], other)

/-- `\d{1,3}(?:,\d{3})*` (no decimal part), as in the second and third
salary patterns. -/
def matchNumGroupNoDec (l : List Char) : Option (List Char × List Char) :=
  let ds := l.takeWhile Char.isDigit
  if ds.isEmpty then none
  else
    let d := ds.take 3
    let rest := l.drop d.length
    let (commaPart, rest2) := matchNumGroup.matchCommaGroups rest
    some (d ++ commaPart, rest2)

/-- `(?:-|to)` with `re.IGNORECASE`: the alternatives in source order. -/
def matchDashTo (l : List Char) : Option (List Char) :=
  match l with
  | '-' :: r => some r
  | c1 :: c2 :: r =>
    if asciiLower c1 = 't' ∧ asciiLower c2 = 'o' then some r else none
  | _ => none

/-- `k?` with `re.IGNORECASE`. -/
def matchOptK (l : List Char) : List Char :=
  match l with
  | c :: r => if asciiLower c = 'k' then r else l
  | [] => l

/-- `(?:per year|annually|\/year)` with `re.IGNORECASE`. -/
def matchYearWord (l : List Char) : Option (List Char) :=
  match matchWordCI ("per year".data) l with
  | some r => some r
  | none =>
    match matchWordCI ("annually".data) l with
    | some r => some r
    | none => matchWordCI ("/year".data) l

/-- A salary-pattern match: the two captured groups and the whole matched
text `group(0)`. -/
structure SalaryMatch where
  g1 : List Char
  g2 : List Char
  g0 : List Char

/-- Salary pattern 1,
`\$(\d{1,3}(?:,\d{3})*(?:\.\d{2})?)\s*(?:-|to)\s*\$(\d{1,3}(?:,\d{3})*(?:\.\d{2})?)`,
matched at the head of `l`. -/
def salaryPat1At (l : List Char) : Option SalaryMatch :=
  match l with
  | '$' :: r1 => do
    let (g1, r2) ← matchNumGroup r1
    let r3 := r2.dropWhile isPyWs
    let r4 ← matchDashTo r3
    let r5 := r4.dropWhile isPyWs
    match r5 with
    | '$' :: r6 => do
      let (g2, r7) ← matchNumGroup r6
      some ⟨g1, g2, l.take (l.length - r7.length)⟩
    | _ => none
  | _ => none

/-- Salary pattern 2,
`\$(\d{1,3}(?:,\d{3})*)\s*k?\s*(?:-|to)\s*\$?(\d{1,3}(?:,\d{3})*)\s*k?`,
matched at the head of `l`. -/
def salaryPat2At (l : List Char) : Option SalaryMatch :=
  match l with
  | '$' :: r1 => do
    let (g1, r2) ← matchNumGroupNoDec r1
    let r3 := matchOptK (r2.dropWhile isPyWs)
    let r4 ← matchDashTo (r3.dropWhile isPyWs)
    let r5 := r4.dropWhile isPyWs
    let r6 := match r5 with
              | '$' :: more => if (more.takeWhile Char.isDigit).isEmpty then r5 else more
              | _ => r5
    let (g2, r7) ← matchNumGroupNoDec r6
    let r8 := matchOptK (r7.dropWhile isPyWs)
    some ⟨g1, g2, l.take (l.length - r8.length)⟩
  | _ => none

/-- Salary pattern 3,
`(\d{1,3}(?:,\d{3})*)\s*(?:-|to)\s*(\d{1,3}(?:,\d{3})*)\s*(?:per year|annually|\/year)`,
matched at the head of `l`. -/
def salaryPat3At (l : List Char) : Option SalaryMatch := do
  let (g1, r1) ← matchNumGroupNoDec l
  let r2 ← matchDashTo (r1.dropWhile isPyWs)
  let (g2, r3) ← matchNumGroupNoDec (r2.dropWhile isPyWs)
  let r4 ← matchYearWord (r3.dropWhile isPyWs)
  some ⟨g1, g2, l.take (l.length - r4.length)⟩

/-- Fuel-driven body of `scanMatches` (the fuel only discharges
termination and `l.length + 1` is always sufficient: every step consumes
at least one character; `max … 1` likewise only guards the recursion,
every salary-pattern match being non-empty). -/
def scanMatchesFuel (matchAt : List Char → Option SalaryMatch) :
    Nat → List Char → List SalaryMatch
  | 0, _ => []
  | fuel + 1, l =>
    match l with
    | [] => []
    | c :: cs =>
      match matchAt (c :: cs) with
      | some m =>
        m :: scanMatchesFuel matchAt fuel ((c :: cs).drop (max m.g0.length 1))
      | none => scanMatchesFuel matchAt fuel cs

/-- `re.finditer`: all non-overlapping matches, scanning left to right and
resuming after each match. -/
def scanMatches (matchAt : List Char → Option SalaryMatch)
    (l : List Char) : List SalaryMatch :=
  scanMatchesFuel matchAt (l.length + 1) l

/-- `re.sub(r'[^\d]', '', s)`: keep only the digits. -/
def stripNonDigits (l : List Char) : List Char := l.filter Char.isDigit

/-- The salary-range record returned by `_extract_salary_range`. -/
structure SalaryRange where
  min : Int
  max : Int
  currency : String
deriving DecidableEq, Repr

/-- One `for match in matches` body of `_extract_salary_range`:
`int(re.sub(r'[^\d]', '', group))` for both groups, the `'k' in
match.group(0).lower()` thousands multiplier, then the plausibility check
`20000 <= minated <= 500000 and min < max`. -/
def salaryMatchToRange (m : SalaryMatch) : Option SalaryRange :=
  match pyInt (String.mk (stripNonDigits m.g1)),
        pyInt (String.mk (stripNonDigits m.g2)) with
  | some mn, some mx =>
    let km := (m.g0.map asciiLower).contains 'k'
    let mn := if km then mn * 1000 else mn
    let mx := if km then mx * 1000 else mx
    if 20000 ≤ mn ∧ mn ≤ 500000 ∧ mn < mx then
      some ⟨mn, mx, "USD"⟩
    else
      none
  | _, _ => none

/-- `_extract_salary_range(text)` from
`Job Description Transformer_V1.2.py`: try the three salary patterns in
order and, within a pattern, every match in order; invalid candidates are
skipped (`continue`), and the default range 80000–120000 USD is returned
when nothing validates. -/
def extractSalaryRange (text : String) : SalaryRange :=
  let tryPattern := fun (matchAt : List Char → Option SalaryMatch) =>
    (scanMatches matchAt text.data).findSome? salaryMatchToRange
  match tryPattern salaryPat1At with
  | some r => r
  | none =>
    match tryPattern salaryPat2At with
    | some r => r
    | none =>
      match tryPattern salaryPat3At with
      | some r => r
      | none => ⟨80000, 120000, "USD"⟩

/-- No newline in the index range `[a, b)` of `l` (a `.*?` gap cannot cross
a newline, since `.` does not match `\n`). -/
def noNlRange (l : List Char) (a b : Nat) : Bool :=
  ((l.drop a).take (b - a)).all (fun c => c ≠ '\n')

/-- Backtracking search for `.*?w₁.*?w₂…​.*?:` (case-insensitive, anchored
at index `start`): word occurrences are tried in ascending position, and
the final colon likewise; returns the index just after the colon. -/
def chainToColon : List (List Char) → List Char → Nat → Option Nat
  | [], l, start =>
    (List.range l.length).findSome? (fun j =>
      if j < start then none
      else if l.get? j = some ':' ∧ noNlRange l start j then some (j + 1)
      else none)
  | w :: ws, l, start =>
    (List.range (l.length + 1)).findSome? (fun i =>
      if i < start then none
      else if (matchWordCI w (l.drop i)).isSome ∧ noNlRange l start i then
        chainToColon ws l (i + w.length)
      else none)

/-- One anchored prefix sub of `clean_response`:
`re.sub(r'^.*?<w₁>…​.*?:\s*', '', s, flags=re.IGNORECASE)` — remove
everything through the matched colon and the whitespace after it. -/
def anchorPrefixSub (words : List (List Char)) (s : List Char) : List Char :=
  match chainToColon words s 0 with
  | some e => (s.drop e).dropWhile isPyWs
  | none => s

/-- `re.search(r'"([^"]+)"', s)`: the first double-quoted non-empty body. -/
def searchQuoted : List Char → Option (List Char)
  | [] => none
  | c :: rest =>
    if c = '"' then
      let body := rest.takeWhile (· ≠ '"')
      let after := rest.dropWhile (· ≠ '"')
      if ¬ body.isEmpty ∧ ¬ after.isEmpty then some body
      else searchQuoted rest
    else searchQuoted rest

/-- Fuel-driven body of `removeParens`; the fuel only discharges
termination and is always sufficient (every step consumes at least one
character). -/
def removeParensFuel : Nat → List Char → List Char
  | 0, l => l
  | _ + 1, [] => []
  | fuel + 1, c :: cs =>
    let rest := (c :: cs).dropWhile isPyWs
    match rest with
    | '(' :: inner =>
      let after := inner.dropWhile (fun x => x ≠ ')' ∧ x ≠ '\n')
      match after with
      | ')' :: tailRest => removeParensFuel fuel tailRest
      | _ => c :: removeParensFuel fuel cs
    | _ => c :: removeParensFuel fuel cs

/-- `re.sub(r'\s*\(.*?\)', '', s)`: drop every whitespace-prefixed
parenthetical whose body stays on one line, left to right. -/
def removeParens (l : List Char) : List Char :=
  removeParensFuel (l.length + 1) l

/-- Backtracking search for the gap/alternative segments of the tail
patterns: each segment is `.*?(alt₁|alt₂|…​)`; positions ascending, then
alternatives in source order; returns the index after the last matched
alternative. -/
def segChain : List (List (List Char)) → List Char → Nat → Option Nat
  | [], _, start => some start
  | alts :: more, l, start =>
    (List.range (l.length + 1)).findSome? (fun i =>
      if i < start then none
      else if ¬ noNlRange l start i then none
      else alts.findSome? (fun w =>
        if (matchWordCI w (l.drop i)).isSome then segChain more l (i + w.length)
        else none))

/-- Match, at the head of `l`, a tail pattern
`\s*<lead>(.*?(alts))*` followed by `.*$` when `endAnchored` (so the match
runs to the end of the string, or to just before one final newline);
returns the match length. -/
def tailMatchAt (lead : List Char) (segs : List (List (List Char)))
    (endAnchored : Bool) (l : List Char) : Option Nat :=
  let wsLen := (l.takeWhile isPyWs).length
  match matchWordCI lead (l.drop wsLen) with
  | some _ =>
    match segChain segs l (wsLen + lead.length) with
    | some segEnd =>
      if endAnchored then
        if noNlRange l segEnd l.length then some l.length
        else if 0 < l.length ∧ l.get? (l.length - 1) = some '\n' ∧
            noNlRange l segEnd (l.length - 1) then
          some (l.length - 1)
        else none
      else some segEnd
    | none => none
  | none => none

/-- Global `re.sub` of a tail pattern with replacement `''`: scan left to
right, resuming after each match.  (`max … 1` only guards the recursion:
a match always contains the non-empty lead.) -/
def tailSubGo (lead : List Char) (segs : List (List (List Char)))
    (endAnchored : Bool) : List Char → List Char
  | [] => []
  | c :: cs =>
    match tailMatchAt lead segs endAnchored (c :: cs) with
    | some matchLen => tailSubGo lead segs endAnchored ((c :: cs).drop (max matchLen 1))
    | none => c :: tailSubGo lead segs endAnchored cs
termination_by l => l.length
decreasing_by
  · simp only [List.length_drop, List.length_cons]
    omega
  · simp only [List.length_cons]
    omega

/-- `re.sub(r'^[-•*]\s*', '', s)`: drop one leading bullet and the
whitespace after it. -/
def stripBullet (l : List Char) : List Char :=
  match l with
  | c :: rest => if c = '-' ∨ c = '•' ∨ c = '*' then rest.dropWhile isPyWs else l
  | [] => []

/-- `re.sub(r'\s*[.!?]+$', '', s)`: drop a trailing punctuation run and
the whitespace before it (`$` also matches just before one final
newline, which is kept). -/
def stripTrailingPunct (l : List Char) : List Char :=
  let isPunct := fun (c : Char) => c = '.' ∨ c = '!' ∨ c = '?'
  let (core, finalNl) :=
    match l.reverse with
    | '\n' :: _ => (l.take (l.length - 1), ['\n'])
    | _ => (l, ([] : List Char))
  let revCore := core.reverse
  let punct := revCore.takeWhile isPunct
  if punct.isEmpty then l
  else
    let rest := revCore.dropWhile isPunct
    (rest.dropWhile isPyWs).reverse ++ finalNl

/-- `re.sub(r'\n+', ' ', s)`: each newline run becomes one space. -/
def collapseNewlines : List Char → List Char
  | [] => []
  | c :: cs =>
    if c = '\n' then ' ' :: collapseNewlines (cs.dropWhile (· = '\n'))
    else c :: collapseNewlines cs
termination_by l => l.length
decreasing_by
  · simp only [List.length_cons]
    exact Nat.lt_succ_of_le ((List.dropWhile_sublist _).length_le)
  · simp only [List.length_cons]; omega

/-- `re.sub(r'\s+', ' ', s)`: each whitespace run becomes one space. -/
def collapseWs : List Char → List Char
  | [] => []
  | c :: cs =>
    if isPyWs c then ' ' :: collapseWs (cs.dropWhile isPyWs)
    else c :: collapseWs cs
termination_by l => l.length
decreasing_by
  · simp only [List.length_cons]
    exact Nat.lt_succ_of_le ((List.dropWhile_sublist _).length_le)
  · simp only [List.length_cons]; omega

/-- The canned field descriptions rejected by `clean_response`. -/
def fieldDescriptions : List String :=
  ["Job title or position name",
   "Brief summary or overview of the job role",
   "Work schedule type",
   "Daily tasks and responsibilities",
   "Required technical skills and technologies",
   "Required soft skills and personal qualities",
   "Description of required experience",
   "Required education credentials"]

/-- Skip words of the `jobSummary` sentence filter. -/
def summarySkipWords : List String :=
  ["combining", "relevant", "covers", "aspects", "information", "provided"]

/-- `'. '.join(sentences)`. -/
def joinWithDotSpace : List (List Char) → List Char
  | [] => []
  | [x] => x
  | x :: rest => x ++ '.' :: ' ' :: joinWithDotSpace rest

/-- The `jobSummary` branch of `clean_response`: keep at most the first
two stripped sentences free of skip words, re-joined with `'. '` and
dot-terminated; when no sentence survives the response is unchanged. -/
def jobSummaryClean (l : List Char) : List Char :=
  let sentences := (splitOnChar '.' l).map pyStripList
  let clean := sentences.filter (fun s =>
    ¬ s.isEmpty ∧ summarySkipWords.all (fun w =>
      ¬ occursIn w.data (s.map asciiLower)))
  if clean.isEmpty then l
  else
    let joined := joinWithDotSpace (clean.take 2)
    match joined.reverse with
    | '.' :: _ => joined
    | _ => joined ++ ['.']

/-- `clean_response(response, field_path)` from
`Job_Transformer_Supabase_v1.2.py`, translated step by step in source
order.  In particular: after stripping, a response longer than 10
characters whose upper-casing contains "OPEN" is discarded outright. -/
def cleanResponse (response : String) (fieldPath : String) : String :=
  if response = "" ∨ pyStrip response = "" then "OPEN"
  else
    let r0 := pyStripList response.data
    if occursIn ("OPEN".data) (r0.map asciiUpper) ∧ 10 < r0.length then "OPEN"
    else if fieldDescriptions.any (fun d => d.data = r0) then "OPEN"
    else
      let r1 := anchorPrefixSub ["extract".data] r0
      let r2 := anchorPrefixSub ["from".data, "job description".data] r1
      let r3 := anchorPrefixSub ["the following".data] r2
      let r4 := anchorPrefixSub ["here is".data] r3
      let r5 := anchorPrefixSub ["based on".data] r4
      let r6 := anchorPrefixSub ["title".data] r5
      let r7 := anchorPrefixSub ["summary".data] r6
      let r8 := anchorPrefixSub ["skills".data] r7
      let r9 := match searchQuoted r8 with
                | some body => body
                | none => r8
      let r10 := removeParens r9
      let r11 := tailSubGo ("-".data)
        [["mentioned".data, "found".data, "listed".data]] true r10
      let r12 := tailSubGo ("this".data)
        [["matches".data, "meets".data, "is".data]] true r11
      let r13 := tailSubGo ("combining".data)
        [["sentences".data], [":".data]] false r12
      let r14 := tailSubGo ("no other information".data) [] true r13
      let r15 := tailSubGo ("so this".data) [["covers".data]] true r14
      let r16 := if strContains fieldPath "jobSummary" then jobSummaryClean r15
                 else r15
      let r17 := stripBullet r16
      let r18 := stripTrailingPunct r17
      let r19 := collapseNewlines r18
      let r20 := collapseWs r19
      let r21 := pyStripList r20
      if r21.isEmpty ∨
          (["n/a", "not mentioned", "not specified", "not available", "none"].any
            (fun t => t.data = r21.map asciiLower)) then "OPEN"
      else if fieldDescriptions.any (fun d => d.data = r21) then "OPEN"
      else String.mk r21

/-- `re.sub(r'^.*?=\s*["\']?', '', item)`: remove through the first `=`
reachable without a newline, then the whitespace and one optional quote
after it. -/
def stripEqLabel (l : List Char) : List Char :=
  match (List.range l.length).findSome? (fun j =>
      if l.get? j = some '=' ∧ noNlRange l 0 j then some (j + 1) else none) with
  | some e =>
    let rest := (l.drop e).dropWhile isPyWs
    (match rest with
     | c :: more => if c = '"' ∨ c = squoteChar then more else rest
     | [] => rest)
  | none => l

/-- `re.sub(r'["\']?\s*$', '', item)`: drop a trailing whitespace run and
one quote immediately before it. -/
def stripQuoteWsEnd (l : List Char) : List Char :=
  let t := (l.reverse.dropWhile isPyWs).reverse
  match t.reverse with
  | c :: restRev =>
    if c = '"' ∨ c = squoteChar then restRev.reverse else t
  | [] => t

/-- `item.strip('\'"')`: strip quote characters from both ends. -/
def stripQuotes (l : List Char) : List Char :=
  let isQ := fun (c : Char) => c = '"' ∨ c = squoteChar
  ((l.dropWhile isQ).reverse.dropWhile isQ).reverse

/-- The list-field branch of `parse_extracted_value`: split on `|` (or wrap
the single value), then clean each item of `=`-labels and quotes, dropping
empties and residual `OPEN` tokens. -/
def parseListItems (rawValue : String) : List String :=
  let items :=
    if strContains rawValue "|" then
      ((splitOnChar '|' rawValue.data).map (fun i => String.mk (pyStripList i))).filter
        (fun i => i ≠ "")
    else if rawValue ≠ "OPEN" then [rawValue] else []
  items.filterMap (fun item =>
    let it := String.mk (stripQuotes (stripQuoteWsEnd (stripEqLabel item.data)))
    if it ≠ "" ∧ it ≠ "OPEN" then some it else none)

/-- `re.search(r'[\$]?(\d{1,3}(?:,\d{3})*(?:\.\d{2})?)', s)`: leftmost
match, returning the captured numeric group. -/
def searchSalaryNum : List Char → Option (List Char)
  | [] => none
  | c :: rest =>
    if c = '$' then
      match matchNumGroup rest with
      | some (g, _) => some g
      | none => searchSalaryNum rest
    else
      match matchNumGroup (c :: rest) with
      | some (g, _) => some g
      | none => searchSalaryNum rest

/-- `int(float(group.replace(',', '')))`: drop the commas and truncate at
the decimal point (the group is non-negative). -/
def salaryGroupToInt (g : List Char) : Int :=
  let noComma := g.filter (· ≠ ',')
  (digitsToNat (noComma.takeWhile (· ≠ '.')) : Int)

/-- Suffix test, Python `str.endswith`. -/
def strEndsWith (s suffix : String) : Bool := suffix.data.isSuffixOf s.data

/-- `parse_extracted_value(raw_value, field_path, default_value)` from
`Job_Transformer_Supabase_v1.2.py`: type-directed coercion dispatched on
substrings of the field path, in source order. -/
def parseExtractedValue (rawValue : String) (fieldPath : String)
    (defaultV : JVal) : JVal :=
  if rawValue = "OPEN" ∨ rawValue = "" then defaultV
  else if strContains fieldPath "requiredYears" then
    match firstDigitRun rawValue.data with
    | some ds => .num (digitsToNat ds)
    | none => .num 0
  else if strContains fieldPath "acceptsExperienceInLieu" then
    .bool (strContains (pyLower rawValue) "true" ||
           strContains (pyLower rawValue) "yes" ||
           strContains (pyLower rawValue) "equivalent")
  else if strContains fieldPath "salary" ∧
      (strContains fieldPath "min" ∨ strContains fieldPath "max") then
    match searchSalaryNum (rawValue.data.filter (· ≠ ',')) with
    | some g => .num (salaryGroupToInt g)
    | none => .num 0
  else if strEndsWith fieldPath "duties" ∨ strEndsWith fieldPath "benefits" ∨
      strEndsWith fieldPath "technical" ∨ strEndsWith fieldPath "soft" then
    .arr ((parseListItems rawValue).map .str)
  else if strContains fieldPath "keyObjectives" then
    if strContains rawValue "|" then
      .arr (((splitOnChar '|' rawValue.data).map pyStripList).filterMap (fun o =>
        if o ≠ [] then
          some (.obj [("objective", .str (String.mk o)),
                      ("timeframe", .str "OPEN"), ("metric", .str "OPEN")])
        else none))
    else if rawValue ≠ "OPEN" then
      .arr [.obj [("objective", .str rawValue),
                  ("timeframe", .str "OPEN"), ("metric", .str "OPEN")]]
    else .arr []
  else
    if rawValue ≠ "OPEN" then .str rawValue else defaultV

/-- The field-mapping table `_initialize_field_mappings` (paths and typed
defaults, in source order; descriptions and keyword hints only shape the
prompt text, which is folded into the completion oracle). -/
def fieldMappings : List (String × JVal) :=
  [("jobProfile.JobId", .str "OPEN"),
   ("jobProfile.coreDetails.title", .str "OPEN"),
   ("jobProfile.coreDetails.jobSummary", .str "OPEN"),
   ("jobProfile.coreDetails.employmentType.agreement", .str "OPEN"),
   ("jobProfile.coreDetails.employmentType.schedule", .str "OPEN"),
   ("jobProfile.coreDetails.employmentType.term", .str "OPEN"),
   ("jobProfile.coreDetails.jobLocation.type", .str "OPEN"),
   ("jobProfile.coreDetails.jobLocation.applicantLocationRequirement", .str "OPEN"),
   ("jobProfile.responsibilities.dayToDayDuties", .arr []),
   ("jobProfile.responsibilities.keyObjectives", .arr []),
   ("jobProfile.qualifications.skills.technical", .arr []),
   ("jobProfile.qualifications.skills.soft", .arr []),
   ("jobProfile.qualifications.experience.requiredYears", .num 0),
   ("jobProfile.qualifications.experience.description", .str "OPEN"),
   ("jobProfile.qualifications.education.requiredCredential", .str "OPEN"),
   ("jobProfile.qualifications.education.acceptsExperienceInLieu", .bool false),
   ("jobProfile.companyContext.culture", .str "OPEN"),
   ("jobProfile.companyContext.growthOpportunities", .str "OPEN"),
   ("jobProfile.compensation.salary.min", .num 0),
   ("jobProfile.compensation.salary.max", .num 0),
   ("jobProfile.compensation.salary.currency", .str "USD"),
   ("jobProfile.compensation.benefits", .arr [])]

mutual

/-- `fill_template_recursively` of `_ensure_complete_template_structure`:
walk the tree, replacing empty-string leaves with `OPEN` and zero numeric
leaves with their defaults; dict keys are never added or removed. -/
def fillTemplateRecursively : JVal → JVal
  | .obj kvs => .obj (fillEntriesGo [] kvs)
  | .arr xs => .arr (fillArrItems xs)
  | v => v

/-- The entry loop: process the entries left to right; `done` holds the
already-processed entries, so that `"salary" in str(obj)` in the numeric
branch sees the dict in its current partially-mutated state, exactly as
the Python in-place mutation does. -/
def fillEntriesGo (done : List (String × JVal)) :
    List (String × JVal) → List (String × JVal)
  | [] => done
  | (k, v) :: rest =>
    let v' := fillTransformValue (done ++ (k, v) :: rest) k v
    fillEntriesGo (done ++ [(k, v')]) rest

/-- The per-entry branch chain of `fill_template_recursively`.  Note that
Python's `isinstance(value, (int, float))` also matches booleans, so a
`False` leaf is rewritten to the integer `0`; and `"salary" in str(obj)`
inspects the repr of the dict being processed. -/
def fillTransformValue (currentEntries : List (String × JVal)) (k : String) :
    JVal → JVal
  | .obj kvs => .obj (fillEntriesGo [] kvs)
  | .arr xs => if xs.isEmpty then .arr [] else .arr (fillArrItems xs)
  | .str s => if s = "" then .str "OPEN" else .str s
  | .num n =>
    if n = 0 ∧ k ≠ "requiredYears" then
      if (k = "min" ∨ k = "max") ∧
          strContains (pyRepr (.obj currentEntries)) "salary" then .num 0
      else if k = "durationMinutes" then .num 0
      else .num 0
    else .num n
  | .bool b =>
    if b = false ∧ k ≠ "requiredYears" then
      if (k = "min" ∨ k = "max") ∧
          strContains (pyRepr (.obj currentEntries)) "salary" then .num 0
      else if k = "durationMinutes" then .num 0
      else .num 0
    else .bool b
  | .null => .null

/-- List items: dict items are recursed into, other items are kept. -/
def fillArrItems : List JVal → List JVal
  | [] => []
  | .obj kvs :: rest => JVal.obj (fillEntriesGo [] kvs) :: fillArrItems rest
  | v :: rest => v :: fillArrItems rest

end

/-- The six `customTags` paths reset by `_fill_special_template_fields`. -/
def customTagPaths : List String :=
  ["jobProfile.coreDetails.customTags",
   "jobProfile.responsibilities.customTags",
   "jobProfile.qualifications.customTags",
   "jobProfile.companyContext.customTags",
   "jobProfile.compensation.customTags",
   "jobProfile.interviewGuidance.customTags"]

/-- The six `extraNotes` paths reset by `_fill_special_template_fields`. -/
def extraNotesPaths : List String :=
  ["jobProfile.coreDetails.extraNotes",
   "jobProfile.responsibilities.extraNotes",
   "jobProfile.qualifications.extraNotes",
   "jobProfile.companyContext.extraNotes",
   "jobProfile.compensation.extraNotes",
   "jobProfile.interviewGuidance.extraNotes"]

/-- `mapM` over `Option`, written structurally so that it reduces in the
kernel; the result agrees with `List.mapM`. -/
def optMapList {a b : Type} (f : a → Option b) : List a → Option (List b)
  | [] => some []
  | x :: rest =>
    match f x, optMapList f rest with
    | some y, some ys => some (y :: ys)
    | _, _ => none

/-- `foldlM` over `Option`, written structurally so that it reduces in
the kernel; the result agrees with `List.foldlM`. -/
def optFoldList {a b : Type} (f : b → a → Option b) : b → List a → Option b
  | acc, [] => some acc
  | acc, x :: rest =>
    match f acc x with
    | some acc2 => optFoldList f acc2 rest
    | none => none

/-- One question dict inside an interview-flow stage: string values become
`OPEN`, list values become `["OPEN"]`; a non-dict question makes
`question.keys()` raise. -/
def fillQuestion : JVal → Option JVal
  | .obj qkvs =>
    some (.obj (qkvs.map (fun p =>
      (p.1, match p.2 with
            | .str _ => JVal.str "OPEN"
            | .arr _ => .arr [.str "OPEN"]
            | other => other))))
  | _ => none

/-- One interview-flow stage dict: string values become `OPEN`, integer
values (booleans included, via `isinstance(…, int)`) become `0`,
`evaluators` lists become `["OPEN"]` and `questions` lists are recursed
into. -/
def fillInterviewStage (skvs : List (String × JVal)) : Option JVal := do
  let entries ← optMapList (fun (p : String × JVal) =>
    match p.2 with
    | .str _ => some (p.1, JVal.str "OPEN")
    | .bool _ => some (p.1, JVal.num 0)
    | .num _ => some (p.1, JVal.num 0)
    | .arr xs =>
      if p.1 = "evaluators" then some (p.1, JVal.arr [.str "OPEN"])
      else if p.1 = "questions" then do
        let qs ← optMapList fillQuestion xs
        some (p.1, JVal.arr qs)
      else some (p.1, JVal.arr xs)
    | other => some (p.1, other)) skvs
  some (.obj entries)

/-- Set a fixed value at several paths in sequence. -/
def setNestedMany (t : JVal) (paths : List String) (value : JVal) : Option JVal :=
  optFoldList (fun acc p => setNested acc (pathKeys p) value) t paths

/-- `_fill_special_template_fields(template)`: reset the `customTags` and
`extraNotes` paths, empty the assessment plan and competency profile,
reset each interview-flow stage to its defaults when an interview flow is
present and truthy, and set the three `meta.customFields` placeholders. -/
def fillSpecialTemplateFields (t : JVal) : Option JVal := do
  let t1 ← setNestedMany t customTagPaths (.arr [])
  let t2 ← setNestedMany t1 extraNotesPaths (.str "OPEN")
  let t3 ← setNested t2 (pathKeys "jobProfile.interviewGuidance.assessmentPlan") (.arr [])
  let t4 ← setNested t3 (pathKeys "jobProfile.interviewGuidance.competencyProfile") (.arr [])
  let iflow := getNested t4 (pathKeys "jobProfile.interviewGuidance.interviewFlow")
  let t5 ←
    if pyTruthyOpt iflow then
      match iflow with
      | some (.arr stages) => do
        let stages' ← optMapList (fun st =>
          match st with
          | .obj skvs => fillInterviewStage skvs
          | _ => none) stages   -- `stage.keys()` on a non-dict raises
        setNested t4 (pathKeys "jobProfile.interviewGuidance.interviewFlow")
          (.arr stages')
      | _ => none         -- iterating a truthy non-list raises on `.keys()`
    else
      pure t4
  let t6 ← setNested t5 (pathKeys "jobProfile.meta.customFields.hardwareRequirement") (.str "OPEN")
  let t7 ← setNested t6 (pathKeys "jobProfile.meta.customFields.timezoneOverlap") (.str "OPEN")
  setNested t7 (pathKeys "jobProfile.meta.customFields.clearance") (.str "OPEN")

/-- `d[k1][k2] = v`: the first key must exist and hold a dict (otherwise
`KeyError`/`TypeError`), the second is created or overwritten. -/
def assignTwoLevel (t : JVal) (k1 k2 : String) (v : JVal) : Option JVal :=
  match t with
  | .obj kvs =>
    match dictGet kvs k1 with
    | some (.obj inner) =>
      some (.obj (dictSet kvs k1 (.obj (dictSet inner k2 v))))
    | _ => none
  | _ => none

/-- `d[k1][k2][k3] = v`: the first two keys must exist and hold dicts. -/
def assignThreeLevel (t : JVal) (k1 k2 k3 : String) (v : JVal) : Option JVal :=
  match t with
  | .obj kvs =>
    match dictGet kvs k1 with
    | some (.obj inner) =>
      match dictGet inner k2 with
      | some (.obj inner2) =>
        some (.obj (dictSet kvs k1
          (.obj (dictSet inner k2 (.obj (dictSet inner2 k3 v))))))
      | _ => none
    | _ => none
  | _ => none

/-- `extract_field_specific_info(job_description, field_path, config)`:
the prompt depends only on the field path (and the job description), so
the completion endpoint is modelled as an oracle `llm` keyed by the field
path; a blank reply short-circuits to `OPEN`, otherwise the reply is run
through `clean_response`. -/
def extractFieldSpecificInfo (llm : String → String) (fieldPath : String) :
    String :=
  let response := llm fieldPath
  if pyStrip response = "" then "OPEN" else cleanResponse response fieldPath

/-- `intelligently_fill_template(template, job_description, template_id)`
from `Job_Transformer_Supabase_v1.2.py`: deep copy (the identity in this
value model), `JobId` assignment, structural completion pass, per-field
overlay pass, special-fields pass, and the `meta` stamps; `now` stands
for `str(int(datetime.now().timestamp()))`.  `none` models an uncaught
exception. -/
def intelligentlyFillTemplate (llm : String → String) (now : String)
    (template : JVal) (templateId : String) : Option JVal := do
  let t0 ← assignTwoLevel template "jobProfile" "JobId" (.str templateId)
  let t1 := fillTemplateRecursively t0
  let t2 ← optFoldList (fun acc fm =>
    if fm.1 = "jobProfile.JobId" then pure acc
    else do
      let raw := extractFieldSpecificInfo llm fm.1
      let parsed := parseExtractedValue raw fm.1 fm.2
      let current := getNested acc (pathKeys fm.1)
      if isNoneLike current ∨ (¬ pyEq parsed fm.2 ∧ ¬ pyEq parsed (.str "OPEN")) then
        setNested acc (pathKeys fm.1) parsed
      else if pyEq parsed (.str "OPEN") ∧ ¬ pyEq fm.2 (.str "OPEN") then
        setNested acc (pathKeys fm.1) fm.2
      else
        pure acc) t1 fieldMappings
  let t3 ← fillSpecialTemplateFields t2
  let t4 ← assignThreeLevel t3 "jobProfile" "meta" "lastUpdated" (.str now)
  let t5 ← assignThreeLevel t4 "jobProfile" "meta" "source" (.str "AI-Extracted")
  assignThreeLevel t5 "jobProfile" "meta" "schemaVersion" (.str "v1.1")

/-- The completion oracle standing for "no extractable information": every
per-field completion call returns an empty reply, which the pipeline turns
into the `OPEN` sentinel — the `fill(T, {})` of the specification. -/
def emptyOracle : String → String := fun _ => ""

/-- Every string leaf outside `exceptPaths` equals `OPEN`. -/
def stringLeavesOpenExcept (exceptPaths : List (List String)) (t : JVal) : Bool :=
  (leafValues t).all (fun p =>
    match p.2 with
    | .str s => exceptPaths.contains p.1 || s = "OPEN"
    | _ => true)

/-- Every list leaf outside `exceptPaths` is the empty list. -/
def listLeavesEmptyExcept (exceptPaths : List (List String)) (t : JVal) : Bool :=
  (leafValues t).all (fun p =>
    match p.2 with
    | .arr xs => exceptPaths.contains p.1 || xs.isEmpty
    | _ => true)

/-- Every numeric leaf is zero. -/
def numLeavesZero (t : JVal) : Bool :=
  (leafValues t).all (fun p =>
    match p.2 with
    | .num n => n = 0
    | _ => true)

/-- A standard template of the shape `intelligently_fill_template`
expects: all mapped and special paths present, string leaves empty, list
leaves empty, numeric leaves zero (the shape of
`JSON_Template/json_template.json`). -/
def stdTemplate : JVal :=
  .obj [("jobProfile", .obj
    [("JobId", .str ""),
     ("coreDetails", .obj
       [("title", .str ""),
        ("jobSummary", .str ""),
        ("employmentType", .obj
          [("agreement", .str ""), ("schedule", .str ""), ("term", .str "")]),
        ("jobLocation", .obj
          [("type", .str ""), ("applicantLocationRequirement", .str "")]),
        ("customTags", .arr []),
        ("extraNotes", .str "")]),
     ("responsibilities", .obj
       [("keyObjectives", .arr []),
        ("dayToDayDuties", .arr []),
        ("customTags", .arr []),
        ("extraNotes", .str "")]),
     ("qualifications", .obj
       [("skills", .obj [("technical", .arr []), ("soft", .arr [])]),
        ("experience", .obj
          [("requiredYears", .num 0), ("description", .str "")]),
        ("education", .obj
          [("requiredCredential", .str ""),
           ("acceptsExperienceInLieu", .bool false)]),
        ("customTags", .arr []),
        ("extraNotes", .str "")]),
     ("companyContext", .obj
       [("culture", .str ""),
        ("growthOpportunities", .str ""),
        ("customTags", .arr []),
        ("extraNotes", .str "")]),
     ("compensation", .obj
       [("salary", .obj
          [("min", .num 0), ("max", .num 0), ("currency", .str "")]),
        ("benefits", .arr []),
        ("customTags", .arr []),
        ("extraNotes", .str "")]),
     ("interviewGuidance", .obj
       [("competencyProfile", .arr []),
        ("assessmentPlan", .arr []),
        ("interviewFlow", .arr
          [.obj [("stage", .str ""), ("durationMinutes", .num 0),
                 ("evaluators", .arr []), ("questions", .arr [])]]),
        ("customTags", .arr []),
        ("extraNotes", .str "")]),
     ("meta", .obj
       [("lastUpdated", .str ""),
        ("source", .str ""),
        ("schemaVersion", .str ""),
        ("customFields", .obj
          [("hardwareRequirement", .str ""),
           ("timezoneOverlap", .str ""),
           ("clearance", .str "")])])])]

/-- A template with a populated string leaf at an unmapped path, used to
test `fill(T, {})` on arbitrary templates. -/
def smallTemplate : JVal :=
  .obj [("jobProfile", .obj
    [("meta", .obj [("customFields", .obj [])]),
     ("greeting", .str "hello")])]

/-- `fill(stdTemplate, {})`: the intelligent fill with the blank
completion oracle. -/
def filledStd : Option JVal :=
  intelligentlyFillTemplate emptyOracle "1700000000" stdTemplate "tid-123"

/-- `fill(smallTemplate, {})`. -/
def filledSmall : Option JVal :=
  intelligentlyFillTemplate emptyOracle "1700000000" smallTemplate "tid-123"

/-!
## Heap model for `fill_json_template` (`Job_Transformer_Ollama_v1.0.py`)

Python assignment `filled["jobProfile"]["coreDetails"]["title"] = x`
mutates the dict object reached by reference.  Since
`fill_json_template` only makes a *shallow* `template.copy()`, the copy
shares every nested dict with the original template, so these writes are
visible through the original.  The heap model makes that sharing
explicit: values live at addresses, dicts and lists hold addresses.
-/

/-- A heap value for the aliasing model: scalars and lists are held by
value (this code never mutates a list in place, so value semantics is
exact for them), while nested dicts live on the heap behind an address —
precisely the sharing that a Python shallow `dict.copy()` exhibits. -/
inductive HVal where
  | null : HVal
  | bool (b : Bool) : HVal
  | num (n : Int) : HVal
  | str (s : String) : HVal
  | arr (xs : List HVal) : HVal
  | dictRef (a : Nat) : HVal

mutual

/-- Decidable structural equality for `HVal` (the `deriving` handler does
not support this nested inductive). -/
def hvalDecEq : (a b : HVal) → Decidable (a = b)
  | .null, .null => isTrue rfl
  | .null, .bool _ => isFalse (by simp)
  | .null, .num _ => isFalse (by simp)
  | .null, .str _ => isFalse (by simp)
  | .null, .arr _ => isFalse (by simp)
  | .null, .dictRef _ => isFalse (by simp)
  | .bool _, .null => isFalse (by simp)
  | .bool a, .bool b =>
    match decEq a b with
    | isTrue h => isTrue (by rw [h])
    | isFalse h => isFalse (by intro hh; injection hh with h2; exact h h2)
  | .bool _, .num _ => isFalse (by simp)
  | .bool _, .str _ => isFalse (by simp)
  | .bool _, .arr _ => isFalse (by simp)
  | .bool _, .dictRef _ => isFalse (by simp)
  | .num _, .null => isFalse (by simp)
  | .num _, .bool _ => isFalse (by simp)
  | .num a, .num b =>
    match decEq a b with
    | isTrue h => isTrue (by rw [h])
    | isFalse h => isFalse (by intro hh; injection hh with h2; exact h h2)
  | .num _, .str _ => isFalse (by simp)
  | .num _, .arr _ => isFalse (by simp)
  | .num _, .dictRef _ => isFalse (by simp)
  | .str _, .null => isFalse (by simp)
  | .str _, .bool _ => isFalse (by simp)
  | .str _, .num _ => isFalse (by simp)
  | .str a, .str b =>
    match decEq a b with
    | isTrue h => isTrue (by rw [h])
    | isFalse h => isFalse (by intro hh; injection hh with h2; exact h h2)
  | .str _, .arr _ => isFalse (by simp)
  | .str _, .dictRef _ => isFalse (by simp)
  | .arr _, .null => isFalse (by simp)
  | .arr _, .bool _ => isFalse (by simp)
  | .arr _, .num _ => isFalse (by simp)
  | .arr _, .str _ => isFalse (by simp)
  | .arr xs, .arr ys =>
    match hvalDecEqList xs ys with
    | isTrue h => isTrue (by rw [h])
    | isFalse h => isFalse (by intro hh; injection hh with h2; exact h h2)
  | .arr _, .dictRef _ => isFalse (by simp)
  | .dictRef _, .null => isFalse (by simp)
  | .dictRef _, .bool _ => isFalse (by simp)
  | .dictRef _, .num _ => isFalse (by simp)
  | .dictRef _, .str _ => isFalse (by simp)
  | .dictRef _, .arr _ => isFalse (by simp)
  | .dictRef a, .dictRef b =>
    match decEq a b with
    | isTrue h => isTrue (by rw [h])
    | isFalse h => isFalse (by intro hh; injection hh with h2; exact h h2)

/-- Decidable equality on heap-value lists. -/
def hvalDecEqList : (xs ys : List HVal) → Decidable (xs = ys)
  | [], [] => isTrue rfl
  | [], _ :: _ => isFalse (by simp)
  | _ :: _, [] => isFalse (by simp)
  | x :: xs, y :: ys =>
    match hvalDecEq x y with
    | isFalse h1 => isFalse (by intro hh; injection hh with ha hb; exact h1 ha)
    | isTrue h1 =>
      match hvalDecEqList xs ys with
      | isTrue h2 => isTrue (by rw [h1, h2])
      | isFalse h2 => isFalse (by intro hh; injection hh with ha hb; exact h2 hb)

end

instance : DecidableEq HVal := hvalDecEq

/-- A heap: an address-indexed store of dict bodies and the next fresh
address. -/
structure Heap where
  cells : List (Nat × List (String × HVal))
  next : Nat
deriving DecidableEq

/-- Read the dict body at an address. -/
def heapGet (h : Heap) (a : Nat) : Option (List (String × HVal)) :=
  (h.cells.find? (fun p => p.1 = a)).map (·.2)

/-- Overwrite the dict body at an existing address. -/
def heapSet (h : Heap) (a : Nat) (entries : List (String × HVal)) : Heap :=
  { h with cells := h.cells.map (fun p => if p.1 = a then (a, entries) else p) }

/-- Allocate a fresh dict cell. -/
def heapAlloc (h : Heap) (entries : List (String × HVal)) : Heap × Nat :=
  ({ cells := h.cells ++ [(h.next, entries)], next := h.next + 1 }, h.next)

/-- Assoc-list update for dict bodies (CPython key semantics). -/
def dictSetH (entries : List (String × HVal)) (k : String) (v : HVal) :
    List (String × HVal) :=
  match entries with
  | [] => [(k, v)]
  | (k2, v2) :: rest =>
    if k2 = k then (k2, v) :: rest else (k2, v2) :: dictSetH rest k v

/-- Assoc-list lookup in a dict body. -/
def dictGetH (entries : List (String × HVal)) (k : String) : Option HVal :=
  (entries.find? (fun p => p.1 = k)).map (·.2)

mutual

/-- Materialize a `JVal` tree as a heap value: nested dicts get fresh
cells, everything else is held by value. -/
def allocJVal (h : Heap) : JVal → Heap × HVal
  | .null => (h, .null)
  | .bool b => (h, .bool b)
  | .num n => (h, .num n)
  | .str s => (h, .str s)
  | .arr xs =>
    let r := allocJValList h xs
    (r.1, .arr r.2)
  | .obj kvs =>
    let r := allocJValEntries h kvs
    let r2 := heapAlloc r.1 r.2
    (r2.1, .dictRef r2.2)

/-- Materialize each list element. -/
def allocJValList (h : Heap) : List JVal → Heap × List HVal
  | [] => (h, [])
  | v :: rest =>
    let r := allocJVal h v
    let r2 := allocJValList r.1 rest
    (r2.1, r.2 :: r2.2)

/-- Materialize each dict entry. -/
def allocJValEntries (h : Heap) :
    List (String × JVal) → Heap × List (String × HVal)
  | [] => (h, [])
  | (k, v) :: rest =>
    let r := allocJVal h v
    let r2 := allocJValEntries r.1 rest
    (r2.1, (k, r.2) :: r2.2)

end

/-- Follow a key path from the dict cell at `a` to the address of a nested
dict cell (`KeyError`/`TypeError` on a missing key or a non-dict value is
`none`). -/
def heapPath (h : Heap) (a : Nat) : List String → Option Nat
  | [] => some a
  | k :: rest =>
    match heapGet h a with
    | some entries =>
      match dictGetH entries k with
      | some (.dictRef a2) => heapPath h a2 rest
      | _ => none
    | none => none

/-- Read the value at a non-empty key path below the dict cell at
`root`. -/
def heapReadValue (h : Heap) (root : Nat) : List String → Option HVal
  | [] => some (.dictRef root)
  | [k] => (heapGet h root).bind (fun entries => dictGetH entries k)
  | k :: rest =>
    match (heapGet h root).bind (fun entries => dictGetH entries k) with
    | some (.dictRef a2) => heapReadValue h a2 rest
    | _ => none

/-- `root[p₁][p₂]…​[k] = v`: navigate to the parent dict cell, materialize
the value tree, and overwrite the entry — every other holder of a
reference to that cell sees the write. -/
def heapAssign (h : Heap) (root : Nat) (path : List String) (k : String)
    (v : JVal) : Option Heap :=
  match heapPath h root path with
  | some parent =>
    match heapGet h parent with
    | some entries =>
      let r := allocJVal h v
      some (heapSet r.1 parent (dictSetH entries k r.2))
    | none => none
  | none => none

/-- Lookup in the extracted-data map (`extracted_data.get(key)`). -/
def lookupStr (entries : List (String × String)) (k : String) : Option String :=
  (entries.find? (fun p => p.1 = k)).map (·.2)

/-- `extracted_data.get(key, default)`. -/
def lookupStrD (entries : List (String × String)) (k d : String) : String :=
  (lookupStr entries k).getD d

/-- The pipe-split list builder used for duties/skills/benefits:
`[x.strip() for x in value.split("|") if x.strip()]`. -/
def pipeSplitClean (value : String) : List String :=
  ((splitOnChar '|' value.data).map (fun i => String.mk (pyStripList i))).filter
    (fun i => i ≠ "")

/-- `extracted_data.get(k)` is truthy and differs from `"OPEN"` — the
guard of the conditional list assignments. -/
def extractedHas (extracted : List (String × String)) (k : String) : Bool :=
  match lookupStr extracted k with
  | some v => v ≠ "" && v ≠ "OPEN"
  | none => false

/-- Steps 1-12 of `fill_json_template`: job id, core details, location,
and the conditional objectives/duties/skills assignments. -/
def fillJsonHeapA (extracted : List (String × String)) (nowId : String)
    (h0 : Heap) (fAddr : Nat) : Option Heap := do
  let jp := ["jobProfile"]
  let core := ["jobProfile", "coreDetails"]
  let h1 ← heapAssign h0 fAddr jp "JobId" (.str ("job-" ++ nowId))
  let h2 ← heapAssign h1 fAddr core "title"
    (.str (lookupStrD extracted "JOB_TITLE" "OPEN"))
  let h3 ← heapAssign h2 fAddr core "jobSummary"
    (.str (lookupStrD extracted "JOB_SUMMARY" "OPEN"))
  let h4 ← heapAssign h3 fAddr (core ++ ["employmentType"]) "agreement"
    (.str (lookupStrD extracted "EMPLOYMENT_TYPE" "OPEN"))
  let h5 ← heapAssign h4 fAddr (core ++ ["employmentType"]) "schedule"
    (.str (lookupStrD extracted "SCHEDULE" "OPEN"))
  let h6 ← heapAssign h5 fAddr (core ++ ["employmentType"]) "term"
    (.str (lookupStrD extracted "TERM" "OPEN"))
  let h7 ← heapAssign h6 fAddr (core ++ ["jobLocation"]) "type"
    (.str (lookupStrD extracted "LOCATION_TYPE" "OPEN"))
  let h8 ← heapAssign h7 fAddr (core ++ ["jobLocation"]) "applicantLocationRequirement"
    (.str (lookupStrD extracted "LOCATION_REQUIREMENT" "OPEN"))
  let h9 ←
    if extractedHas extracted "KEY_OBJECTIVES" then
      heapAssign h8 fAddr (jp ++ ["responsibilities"]) "keyObjectives"
        (.arr ((pipeSplitClean (lookupStrD extracted "KEY_OBJECTIVES" "")).map (fun o =>
          .obj [("objective", .str o), ("timeframe", .str "OPEN"),
                ("metric", .str "OPEN")])))
    else pure h8
  let h10 ←
    if extractedHas extracted "DAY_TO_DAY_DUTIES" then
      heapAssign h9 fAddr (jp ++ ["responsibilities"]) "dayToDayDuties"
        (.arr ((pipeSplitClean (lookupStrD extracted "DAY_TO_DAY_DUTIES" "")).map .str))
    else pure h9
  let h11 ←
    if extractedHas extracted "TECHNICAL_SKILLS" then
      heapAssign h10 fAddr (jp ++ ["qualifications", "skills"]) "technical"
        (.arr ((pipeSplitClean (lookupStrD extracted "TECHNICAL_SKILLS" "")).map .str))
    else pure h10
  if extractedHas extracted "SOFT_SKILLS" then
    heapAssign h11 fAddr (jp ++ ["qualifications", "skills"]) "soft"
      (.arr ((pipeSplitClean (lookupStrD extracted "SOFT_SKILLS" "")).map .str))
  else pure h11

/-- Steps 13-18 of `fill_json_template`: experience, education and company
context. -/
def fillJsonHeapB (extracted : List (String × String)) (h12 : Heap)
    (fAddr : Nat) : Option Heap := do
  let jp := ["jobProfile"]
  let years :=
    match firstDigitRun (lookupStrD extracted "REQUIRED_YEARS" "0").data with
    | some ds => (digitsToNat ds : Int)
    | none => 0
  let h13 ← heapAssign h12 fAddr (jp ++ ["qualifications", "experience"])
    "requiredYears" (.num years)
  let h14 ← heapAssign h13 fAddr (jp ++ ["qualifications", "experience"])
    "description" (.str (lookupStrD extracted "EXPERIENCE_DESCRIPTION" "OPEN"))
  let h15 ← heapAssign h14 fAddr (jp ++ ["qualifications", "education"])
    "requiredCredential" (.str (lookupStrD extracted "EDUCATION_REQUIRED" "OPEN"))
  let acceptsExp :=
    pyLower (lookupStrD extracted "ACCEPTS_EXPERIENCE_IN_LIEU" "false") = "true"
  let h16 ← heapAssign h15 fAddr (jp ++ ["qualifications", "education"])
    "acceptsExperienceInLieu" (.bool acceptsExp)
  let h17 ← heapAssign h16 fAddr (jp ++ ["companyContext"]) "culture"
    (.str (lookupStrD extracted "COMPANY_CULTURE" "OPEN"))
  heapAssign h17 fAddr (jp ++ ["companyContext"]) "growthOpportunities"
    (.str (lookupStrD extracted "GROWTH_OPPORTUNITIES" "OPEN"))

/-- Steps 19-25 of `fill_json_template`: compensation, interview guidance
and the metadata stamp. -/
def fillJsonHeapC (extracted : List (String × String)) (nowTs : String)
    (h18 : Heap) (fAddr : Nat) : Option Heap := do
  let jp := ["jobProfile"]
  let salMinMax :=
    match (match lookupStr extracted "SALARY_MIN" with
           | none => some (0 : Int)
           | some s => pyInt s),
          (match lookupStr extracted "SALARY_MAX" with
           | none => some (0 : Int)
           | some s => pyInt s) with
    | some mn, some mx => (mn, mx)
    | _, _ => ((0 : Int), (0 : Int))     -- `except (ValueError, TypeError)`
  let h19 ← heapAssign h18 fAddr (jp ++ ["compensation", "salary"]) "min"
    (.num salMinMax.1)
  let h20 ← heapAssign h19 fAddr (jp ++ ["compensation", "salary"]) "max"
    (.num salMinMax.2)
  let h21 ← heapAssign h20 fAddr (jp ++ ["compensation", "salary"]) "currency"
    (.str (lookupStrD extracted "CURRENCY" "USD"))
  let h22 ←
    if extractedHas extracted "BENEFITS" then
      heapAssign h21 fAddr (jp ++ ["compensation"]) "benefits"
        (.arr ((pipeSplitClean (lookupStrD extracted "BENEFITS" "")).map .str))
    else pure h21
  let h23 ←
    if extractedHas extracted "COMPETENCY_PROFILE" then
      heapAssign h22 fAddr (jp ++ ["interviewGuidance"]) "competencyProfile"
        (.arr ((pipeSplitClean (lookupStrD extracted "COMPETENCY_PROFILE" "")).map .str))
    else pure h22
  let h24 ←
    if extractedHas extracted "ASSESSMENT_PLAN" then
      heapAssign h23 fAddr (jp ++ ["interviewGuidance"]) "assessmentPlan"
        (.arr ((pipeSplitClean (lookupStrD extracted "ASSESSMENT_PLAN" "")).map .str))
    else pure h23
  heapAssign h24 fAddr (jp ++ ["meta"]) "lastUpdated" (.str nowTs)

/-- `fill_json_template(template, extracted_data)` from
`Job_Transformer_Ollama_v1.0.py`, on the heap model.  The first line is
the *shallow* `template.copy()`: a fresh top-level dict sharing every
child address with the original; all later writes go through those shared
children.  `nowId` stands for the strftime suffix of the generated job
id, `nowTs` for `str(int(datetime.now().timestamp()))`.  `none` models an
uncaught `KeyError`/`TypeError`. -/
def fillJsonTemplateHeap (extracted : List (String × String))
    (nowId nowTs : String) (h : Heap) (tAddr : Nat) : Option (Heap × Nat) := do
  let entries ← heapGet h tAddr
  let (h0, fAddr) := heapAlloc h entries
  let hA ← fillJsonHeapA extracted nowId h0 fAddr
  let hB ← fillJsonHeapB extracted hA fAddr
  let hC ← fillJsonHeapC extracted nowTs hB fAddr
  pure (hC, fAddr)

/-- A concrete template of the expected shape, materialized on an empty
heap for the `fill_json_template` runs. -/
def heapTemplate : JVal :=
  .obj [("jobProfile", .obj
    [("JobId", .str ""),
     ("coreDetails", .obj
       [("title", .str ""),
        ("jobSummary", .str ""),
        ("employmentType", .obj
          [("agreement", .str ""), ("schedule", .str ""), ("term", .str "")]),
        ("jobLocation", .obj
          [("type", .str ""), ("applicantLocationRequirement", .str "")])]),
     ("responsibilities", .obj
       [("keyObjectives", .arr []), ("dayToDayDuties", .arr [])]),
     ("qualifications", .obj
       [("skills", .obj [("technical", .arr []), ("soft", .arr [])]),
        ("experience", .obj
          [("requiredYears", .num 0), ("description", .str "")]),
        ("education", .obj
          [("requiredCredential", .str ""),
           ("acceptsExperienceInLieu", .bool false)])]),
     ("companyContext", .obj
       [("culture", .str ""), ("growthOpportunities", .str "")]),
     ("compensation", .obj
       [("salary", .obj
          [("min", .num 0), ("max", .num 0), ("currency", .str "")]),
        ("benefits", .arr [])]),
     ("interviewGuidance", .obj
       [("competencyProfile", .arr []), ("assessmentPlan", .arr [])]),
     ("meta", .obj [("lastUpdated", .str "")])])]

/-- The initial heap and the template's address. -/
def heapInit : Heap × Nat :=
  let r := allocJVal ⟨[], 0⟩ heapTemplate
  (r.1, match r.2 with
        | .dictRef a => a
        | _ => 0)

/-- The heap after `fill_json_template(template, {})`. -/
def heapAfterFill : Option (Heap × Nat) :=
  fillJsonTemplateHeap [] "20260101000000" "1700000000"
    heapInit.1 heapInit.2

/-- The read-back verification predicate: the first returned row exists
and its `Interview_report` column is populated (truthy). -/
def readBackPopulated (verifyData : List JVal) : Bool :=
  match verifyData with
  | row :: _ =>
    match row with
    | .obj kvs => pyTruthyOpt (dictGet kvs "Interview_report")
    | _ => false
  | [] => false

/-- Intermediate heap literal of the `fill_json_template` run. -/
def heapFill0 : Heap :=
  ⟨[(0, [("agreement", .str ""), ("schedule", .str ""), ("term", .str "")]),
    (1, [("type", .str ""), ("applicantLocationRequirement", .str "")]),
    (2, [("title", .str ""), ("jobSummary", .str ""), ("employmentType", .dictRef 0), ("jobLocation", .dictRef 1)]),
    (3, [("keyObjectives", .arr []), ("dayToDayDuties", .arr [])]),
    (4, [("technical", .arr []), ("soft", .arr [])]),
    (5, [("requiredYears", .num (0)), ("description", .str "")]),
    (6, [("requiredCredential", .str ""), ("acceptsExperienceInLieu", .bool false)]),
    (7, [("skills", .dictRef 4), ("experience", .dictRef 5), ("education", .dictRef 6)]),
    (8, [("culture", .str ""), ("growthOpportunities", .str "")]),
    (9, [("min", .num (0)), ("max", .num (0)), ("currency", .str "")]),
    (10, [("salary", .dictRef 9), ("benefits", .arr [])]),
    (11, [("competencyProfile", .arr []), ("assessmentPlan", .arr [])]),
    (12, [("lastUpdated", .str "")]),
    (13, [("JobId", .str ""), ("coreDetails", .dictRef 2), ("responsibilities", .dictRef 3), ("qualifications", .dictRef 7), ("companyContext", .dictRef 8), ("compensation", .dictRef 10), ("interviewGuidance", .dictRef 11), ("meta", .dictRef 12)]),
    (14, [("jobProfile", .dictRef 13)]),
    (15, [("jobProfile", .dictRef 13)])],
   16⟩

/-- Intermediate heap literal of the `fill_json_template` run. -/
def heapFill8 : Heap :=
  ⟨[(0, [("agreement", .str "OPEN"), ("schedule", .str "OPEN"), ("term", .str "OPEN")]),
    (1, [("type", .str "OPEN"), ("applicantLocationRequirement", .str "OPEN")]),
    (2, [("title", .str "OPEN"), ("jobSummary", .str "OPEN"), ("employmentType", .dictRef 0), ("jobLocation", .dictRef 1)]),
    (3, [("keyObjectives", .arr []), ("dayToDayDuties", .arr [])]),
    (4, [("technical", .arr []), ("soft", .arr [])]),
    (5, [("requiredYears", .num (0)), ("description", .str "")]),
    (6, [("requiredCredential", .str ""), ("acceptsExperienceInLieu", .bool false)]),
    (7, [("skills", .dictRef 4), ("experience", .dictRef 5), ("education", .dictRef 6)]),
    (8, [("culture", .str ""), ("growthOpportunities", .str "")]),
    (9, [("min", .num (0)), ("max", .num (0)), ("currency", .str "")]),
    (10, [("salary", .dictRef 9), ("benefits", .arr [])]),
    (11, [("competencyProfile", .arr []), ("assessmentPlan", .arr [])]),
    (12, [("lastUpdated", .str "")]),
    (13, [("JobId", .str "job-20260101000000"), ("coreDetails", .dictRef 2), ("responsibilities", .dictRef 3), ("qualifications", .dictRef 7), ("companyContext", .dictRef 8), ("compensation", .dictRef 10), ("interviewGuidance", .dictRef 11), ("meta", .dictRef 12)]),
    (14, [("jobProfile", .dictRef 13)]),
    (15, [("jobProfile", .dictRef 13)])],
   16⟩

/-- Intermediate heap literal of the `fill_json_template` run. -/
def heapFill14 : Heap :=
  ⟨[(0, [("agreement", .str "OPEN"), ("schedule", .str "OPEN"), ("term", .str "OPEN")]),
    (1, [("type", .str "OPEN"), ("applicantLocationRequirement", .str "OPEN")]),
    (2, [("title", .str "OPEN"), ("jobSummary", .str "OPEN"), ("employmentType", .dictRef 0), ("jobLocation", .dictRef 1)]),
    (3, [("keyObjectives", .arr []), ("dayToDayDuties", .arr [])]),
    (4, [("technical", .arr []), ("soft", .arr [])]),
    (5, [("requiredYears", .num (0)), ("description", .str "OPEN")]),
    (6, [("requiredCredential", .str "OPEN"), ("acceptsExperienceInLieu", .bool false)]),
    (7, [("skills", .dictRef 4), ("experience", .dictRef 5), ("education", .dictRef 6)]),
    (8, [("culture", .str "OPEN"), ("growthOpportunities", .str "OPEN")]),
    (9, [("min", .num (0)), ("max", .num (0)), ("currency", .str "")]),
    (10, [("salary", .dictRef 9), ("benefits", .arr [])]),
    (11, [("competencyProfile", .arr []), ("assessmentPlan", .arr [])]),
    (12, [("lastUpdated", .str "")]),
    (13, [("JobId", .str "job-20260101000000"), ("coreDetails", .dictRef 2), ("responsibilities", .dictRef 3), ("qualifications", .dictRef 7), ("companyContext", .dictRef 8), ("compensation", .dictRef 10), ("interviewGuidance", .dictRef 11), ("meta", .dictRef 12)]),
    (14, [("jobProfile", .dictRef 13)]),
    (15, [("jobProfile", .dictRef 13)])],
   16⟩

/-- Intermediate heap literal of the `fill_json_template` run. -/
def heapFill18 : Heap :=
  ⟨[(0, [("agreement", .str "OPEN"), ("schedule", .str "OPEN"), ("term", .str "OPEN")]),
    (1, [("type", .str "OPEN"), ("applicantLocationRequirement", .str "OPEN")]),
    (2, [("title", .str "OPEN"), ("jobSummary", .str "OPEN"), ("employmentType", .dictRef 0), ("jobLocation", .dictRef 1)]),
    (3, [("keyObjectives", .arr []), ("dayToDayDuties", .arr [])]),
    (4, [("technical", .arr []), ("soft", .arr [])]),
    (5, [("requiredYears", .num (0)), ("description", .str "OPEN")]),
    (6, [("requiredCredential", .str "OPEN"), ("acceptsExperienceInLieu", .bool false)]),
    (7, [("skills", .dictRef 4), ("experience", .dictRef 5), ("education", .dictRef 6)]),
    (8, [("culture", .str "OPEN"), ("growthOpportunities", .str "OPEN")]),
    (9, [("min", .num (0)), ("max", .num (0)), ("currency", .str "USD")]),
    (10, [("salary", .dictRef 9), ("benefits", .arr [])]),
    (11, [("competencyProfile", .arr []), ("assessmentPlan", .arr [])]),
    (12, [("lastUpdated", .str "1700000000")]),
    (13, [("JobId", .str "job-20260101000000"), ("coreDetails", .dictRef 2), ("responsibilities", .dictRef 3), ("qualifications", .dictRef 7), ("companyContext", .dictRef 8), ("compensation", .dictRef 10), ("interviewGuidance", .dictRef 11), ("meta", .dictRef 12)]),
    (14, [("jobProfile", .dictRef 13)]),
    (15, [("jobProfile", .dictRef 13)])],
   16⟩

/-!
## Theorems
-/

/-- **C3, counterexample.**  The per-field salary coercion
`parse_extracted_value` has no `k`-marker handling: on the raw text
`"$120k - $160k"` for the `salary.min` field it returns `120`, not the
`120000` the claim requires (`pyEq … 120000` is `false`). -/
theorem parseExtractedValue_salary_no_k_marker :
    parseExtractedValue "$120k - $160k" "jobProfile.compensation.salary.min"
      (.num 0) = .num 120 ∧
    pyEq (parseExtractedValue "$120k - $160k"
      "jobProfile.compensation.salary.min" (.num 0)) (.num 120000) = false := by
  exact ⟨rfl, rfl⟩

/-- **C3, amended.**  The range extractor `_extract_salary_range` does
implement the claimed coercion: on `"$120k - $160k"` the `k` marker
multiplies both bounds by 1000 and the result is min = 120000,
max = 160000, currency `"USD"`; thousands separators are stripped
(`"$120,000 to $160,000"` gives the same range); and ranges outside the
plausibility bound `20000 ≤ min ≤ 500000` are rejected in favour of the
80000–120000 USD default. -/
theorem extractSalaryRange_coercion :
    extractSalaryRange "$120k - $160k" = ⟨120000, 160000, "USD"⟩ ∧
    extractSalaryRange "$120,000 to $160,000" = ⟨120000, 160000, "USD"⟩ ∧
    extractSalaryRange "$600k - $700k" = ⟨80000, 120000, "USD"⟩ ∧
    extractSalaryRange "$1k - $2k" = ⟨80000, 120000, "USD"⟩ := by
  exact ⟨rfl, rfl, rfl, rfl⟩

/-- **C5.**  Conversation reconstruction: the parallel
`questions`/`answers` arrays zip into alternating assistant/user turns
(the claim's concrete instance); a direct object exposing the
`conversation` alias wins over the question/answer arrays (shape (b)
before shape (c)); and the single-element session wrapper around
`conversation_history` is shape (a), with `speaker`/`text` resolved from
the alias sets. -/
theorem extractConversationData_shapes :
    extractConversationData
      (.obj [("questions", .arr [.str "Q1"]), ("answers", .arr [.str "A1"])]) =
      [.obj [("role", .str "assistant"), ("content", .str "Q1")],
       .obj [("role", .str "user"), ("content", .str "A1")]] ∧
    extractConversationData
      (.obj [("conversation", .arr [.obj [("role", .str "assistant"),
                                          ("message", .str "Hi")]]),
             ("questions", .arr [.str "Q1"]), ("answers", .arr [.str "A1"])]) =
      [.obj [("role", .str "assistant"), ("content", .str "Hi")]] ∧
    extractConversationData
      (.arr [.obj [("session_data", .obj [("conversation_history",
        .arr [.obj [("speaker", .str "user"), ("text", .str "hello")]])])]]) =
      [.obj [("role", .str "user"), ("content", .str "hello")]] := by
  exact ⟨rfl, rfl, rfl⟩

/-- **C4, counterexample.**  The v1.0 initial-JSON write: with an
initialized client and an update that matched no rows (so the target
column is still null), `save_initial_json_to_db` completes without any
failure signal — it returns the empty data list as a success. -/
theorem saveInitialJsonV10_no_verification :
    saveInitialJsonToDbV10 true [] = .ok [] ∧
    (saveInitialJsonToDbV10 true []).isOk = true := by
  exact ⟨rfl, rfl⟩

/-- **C4, amended.**  The evaluation-report write does behave as claimed:
it reports success only when the session-existence check returned a row,
the update returned data, and the read-back shows `Interview_report`
populated; an update returning no rows is reported as failure, and so is
a read-back that still sees a null column, even with no transport
error. -/
theorem saveEvaluationReport_readback (c u v : List JVal) :
    (saveEvaluationReport c u v = true → readBackPopulated v = true ∧
      c.isEmpty = false ∧ u.isEmpty = false) ∧
    saveEvaluationReport c [] v = false ∧
    saveEvaluationReport c u [.obj [("Interview_report", .null)]] =
      (!c.isEmpty && !u.isEmpty && false) := by
  refine ⟨?_, ?_, ?_⟩
  · intro h
    unfold saveEvaluationReport at h
    cases hc : c.isEmpty with
    | true => simp [hc] at h
    | false =>
      cases hu : u.isEmpty with
      | true => simp [hc, hu] at h
      | false =>
        simp only [hc, hu, Bool.false_eq_true, if_false, Bool.not_false,
          if_true] at h
        refine ⟨?_, rfl, rfl⟩
        unfold readBackPopulated
        cases v with
        | nil => simp [pyTruthyOpt] at h
        | cons row rest =>
          cases row <;> simp_all [pyTruthyOpt]
  · unfold saveEvaluationReport
    cases hc : c.isEmpty <;> simp
  · unfold saveEvaluationReport
    cases hc : c.isEmpty <;> cases hu : u.isEmpty <;>
      simp [pyTruthyOpt, dictGet, pyTruthy]

/-- The shallow copy made by `fill_json_template`: reading the original
template's address yields the single `jobProfile` entry, pointing at the
shared cell 13. -/
theorem heapCopyEq :
    heapGet heapInit.1 heapInit.2 = some [("jobProfile", .dictRef 13)] := by
  decide

/-- Allocating the shallow copy produces `heapFill0` and the copy's
address 15, whose entry list aliases the original's children. -/
theorem heapAllocEq :
    heapAlloc heapInit.1 [("jobProfile", .dictRef 13)] = (heapFill0, 15) := by
  decide

set_option maxHeartbeats 2000000 in
/-- Steps 1-12 of the fill on the empty extraction map. -/
theorem heapStepA :
    fillJsonHeapA [] "20260101000000" heapFill0 15 = some heapFill8 := by
  decide

set_option maxHeartbeats 2000000 in
/-- Steps 13-18 of the fill on the empty extraction map. -/
theorem heapStepB : fillJsonHeapB [] heapFill8 15 = some heapFill14 := by
  decide

set_option maxHeartbeats 2000000 in
/-- Steps 19-25 of the fill on the empty extraction map. -/
theorem heapStepC :
    fillJsonHeapC [] "1700000000" heapFill14 15 = some heapFill18 := by
  decide

/-- The complete `fill_json_template` run on the empty extraction map. -/
theorem heapAfterFillEq : heapAfterFill = some (heapFill18, 15) := by
  unfold heapAfterFill fillJsonTemplateHeap
  rw [heapCopyEq]
  simp only [Option.bind_eq_bind, Option.some_bind, heapAllocEq, heapStepA,
    heapStepB, heapStepC]
  rfl

/-- **C7 (code bug).**  `fill_json_template` only makes a shallow
`template.copy()`, so its writes go through the nested dicts shared with
the original template: before the fill the original's
`jobProfile.coreDetails.title` reads `""`, after the fill (with an empty
extraction map) the *original* reads `"OPEN"`, and even the original's
`JobId` now carries the generated id — the template is mutated in place,
contradicting the never-mutate claim (which v1.2 implements with a deep
copy). -/
theorem fillJsonTemplate_mutates_original :
    heapReadValue heapInit.1 heapInit.2 ["jobProfile", "coreDetails", "title"] =
      some (.str "") ∧
    heapAfterFill.bind (fun p =>
      heapReadValue p.1 heapInit.2 ["jobProfile", "coreDetails", "title"]) =
      some (.str "OPEN") ∧
    heapAfterFill.bind (fun p =>
      heapReadValue p.1 heapInit.2 ["jobProfile", "JobId"]) =
      some (.str "job-20260101000000") := by
  refine ⟨by decide, ?_, ?_⟩
  · rw [heapAfterFillEq]; decide
  · rw [heapAfterFillEq]; decide

/-- **C2, counterexample.**  Filling a template with the empty extraction
map does not give a tree with the same leaf paths and all-`OPEN` string
leaves: on `smallTemplate` the fill succeeds but adds every missing
mapped/special path (the leaf-path sets differ), and the populated string
leaf `jobProfile.greeting` keeps its value `"hello"`, which is not the
`OPEN` sentinel. -/
theorem fillEmpty_smallTemplate_cex :
    filledSmall.isSome = true ∧
    (filledSmall.map (fun r =>
      decide (leafPaths r = leafPaths smallTemplate))).getD true = false ∧
    filledSmall.bind (fun r => getNested r ["jobProfile", "greeting"]) =
      some (.str "hello") ∧
    pyEq (.str "hello") (.str "OPEN") = false := by
  exact ⟨by decide, by decide, by decide, by decide⟩

/-- **C2, amended.**  On a template that already carries every mapped and
special field path, with empty string leaves, empty list leaves and zero
numeric leaves, `fill(T, {})` preserves the leaf-path set exactly; every
string leaf is `OPEN` except the caller-supplied `JobId` and the three
`meta` stamps; every list leaf stays empty except the interview-flow
scaffolding, whose single stage is reset to string `OPEN`s, duration `0`,
`evaluators = ["OPEN"]` and empty `questions`; and every numeric leaf is
`0` (including the `acceptsExperienceInLieu` boolean, which the
`isinstance(…, int)` zero-default pass rewrites to the integer `0`). -/
theorem fillEmpty_stdTemplate :
    (filledStd.map (fun r =>
      decide (leafPaths r = leafPaths stdTemplate))).getD false = true ∧
    (filledStd.map (stringLeavesOpenExcept
      [["jobProfile", "JobId"],
       ["jobProfile", "meta", "lastUpdated"],
       ["jobProfile", "meta", "source"],
       ["jobProfile", "meta", "schemaVersion"]])).getD false = true ∧
    (filledStd.map (listLeavesEmptyExcept
      [["jobProfile", "interviewGuidance", "interviewFlow"]])).getD false = true ∧
    (filledStd.map numLeavesZero).getD false = true ∧
    filledStd.bind (fun r => getNested r ["jobProfile", "JobId"]) =
      some (.str "tid-123") ∧
    filledStd.bind (fun r =>
      getNested r ["jobProfile", "interviewGuidance", "interviewFlow"]) =
      some (.arr [.obj [("stage", .str "OPEN"), ("durationMinutes", .num 0),
                        ("evaluators", .arr [.str "OPEN"]),
                        ("questions", .arr [])]]) ∧
    filledStd.bind (fun r =>
      getNested r ["jobProfile", "qualifications", "education",
                   "acceptsExperienceInLieu"]) = some (.num 0) := by
  exact ⟨by decide, by decide, by decide, by decide, by decide, by decide,
    by decide⟩

/-- Values inserted by `dictSetStr` stay non-empty when the inserted
value and all values already present are non-empty. -/
lemma dictSetStr_values_ne (k v : String) (hv : v ≠ "") :
    ∀ (entries : List (String × String)), (∀ kv ∈ entries, kv.2 ≠ "") →
      ∀ kv ∈ dictSetStr entries k v, kv.2 ≠ "" := by
  intro entries
  induction entries with
  | nil =>
    intro _ kv hkv
    simp only [dictSetStr, List.mem_singleton] at hkv
    subst hkv
    exact hv
  | cons e rest ih =>
    intro h kv hkv
    obtain ⟨k', v'⟩ := e
    simp only [dictSetStr] at hkv
    by_cases hk : k' = k
    · rw [if_pos hk] at hkv
      rcases List.mem_cons.mp hkv with h1 | h1
      · subst h1; exact hv
      · exact h _ (List.mem_cons_of_mem _ h1)
    · rw [if_neg hk] at hkv
      rcases List.mem_cons.mp hkv with h1 | h1
      · subst h1; exact h _ (List.mem_cons_self _ _)
      · exact ih (fun kv2 hkv2 => h kv2 (List.mem_cons_of_mem _ hkv2)) kv h1

/-- Every value recorded by the line-parsing fold is non-empty when the
accumulator's values are. -/
lemma parseLlamaFold_values_ne :
    ∀ (lines : List (List Char)) (acc : List (String × String)),
      (∀ kv ∈ acc, kv.2 ≠ "") →
      ∀ kv ∈ lines.foldl parseLlamaLine acc, kv.2 ≠ "" := by
  intro lines
  induction lines with
  | nil => intro acc h; simpa using h
  | cons l rest ih =>
    intro acc h
    rw [List.foldl_cons]
    refine ih _ ?_
    intro kv hkv
    simp only [parseLlamaLine] at hkv
    split at hkv
    · split at hkv
      · next hcond => exact dictSetStr_values_ne _ _ hcond.1 acc h kv hkv
      · exact dictSetStr_values_ne _ _ (by decide) acc h kv hkv
    · exact h kv hkv

/-- **C6.**  `parse_llama_response` splits its stripped input on newlines,
splits each line once at its first colon, trims both sides, strips an
echoed field-name label, and records the `OPEN` sentinel for a value that
is empty or case-insensitively "open": the documented example parses to
the documented map, a label-echoing line is stripped of its label, a
lower-case "open" and an empty value both become `OPEN`, and no recorded
value is ever the empty string. -/
theorem parseLlamaResponse_field_block (s : String) :
    parseLlamaResponse "TITLE: Senior Engineer\nSALARY: OPEN\n" =
      [("TITLE", "Senior Engineer"), ("SALARY", "OPEN")] ∧
    parseLlamaResponse "Field - TITLE: Senior Engineer\nSALARY: open\nNOTES:" =
      [("TITLE", "Senior Engineer"), ("SALARY", "OPEN"), ("NOTES", "OPEN")] ∧
    ∀ kv ∈ parseLlamaResponse s, kv.2 ≠ "" := by
  refine ⟨by decide, by decide, ?_⟩
  exact parseLlamaFold_values_ne _ [] (by simp)

/-- One batch step sorts the session id into the successes (with its
value) or the failures, depending on the truthiness of its evaluation. -/
lemma batchStep_eq (f : String → EvalOutcome)
    (s : List (String × JVal)) (fl : List String) (a : String) :
    batchStep f (s, fl) a =
      if evalSuccess f a then (s ++ [(a, evalValue f a)], fl)
      else (s, fl ++ [a]) := by
  unfold batchStep evalSuccess evalValue
  cases f a with
  | returns v =>
    by_cases hv : pyTruthy v = true
    · simp [hv]
    · simp [hv]
  | raises => simp

/-- The batch fold from any accumulator appends the filtered successes
(with their values) and the filtered failures, in order. -/
lemma batchFoldl_spec (f : String → EvalOutcome) :
    ∀ (ids : List String) (s : List (String × JVal)) (fl : List String),
      ids.foldl (batchStep f) (s, fl) =
        (s ++ (ids.filter (evalSuccess f)).map (fun i => (i, evalValue f i)),
         fl ++ ids.filter (fun i => !evalSuccess f i)) := by
  intro ids
  induction ids with
  | nil => intro s fl; simp
  | cons a rest ih =>
    intro s fl
    rw [List.foldl_cons, batchStep_eq]
    by_cases ha : evalSuccess f a = true
    · rw [if_pos ha, ih]
      simp [List.filter_cons, ha, List.append_assoc]
    · rw [if_neg ha, ih]
      simp only [Bool.not_eq_true] at ha
      simp [List.filter_cons, ha, List.append_assoc]

/-- **C9, counterexample.**  On the empty session list the batch driver
does not complete with a tally: the success-rate computation divides by
`len(session_ids) = 0` and raises `ZeroDivisionError`. -/
theorem batchEvaluateSessions_empty_raises :
    batchEvaluateSessions (fun _ => .returns (.num 1)) [] =
      .error "ZeroDivisionError" := rfl

/-- **C9, amended.**  On a non-empty session list the batch driver does
behave as claimed: it processes the ids sequentially, a falsy or raising
evaluation only adds its id to the failures, and the driver always
returns a tally with every id accounted for — the successes in order with
their values, the failures in order, the total count, and the success
rate. -/
theorem batchEvaluateSessions_completes (f : String → EvalOutcome)
    (ids : List String) (h : ids ≠ []) :
    batchEvaluateSessions f ids = .ok
      ⟨(ids.filter (evalSuccess f)).map (fun i => (i, evalValue f i)),
       ids.filter (fun i => !evalSuccess f i),
       ids.length,
       ((ids.filter (evalSuccess f)).length : ℚ) / (ids.length : ℚ) * 100⟩ := by
  simp only [batchEvaluateSessions, batchFoldl_spec f ids [] []]
  rw [if_neg (fun hl => h (List.length_eq_zero.mp hl))]
  simp [List.length_map]

/-- Witness for the amended batch theorem: a single session whose
evaluation returns the truthy value `1` gives one success, no failures
and a 100% success rate. -/
theorem batchEvaluateSessions_completes_witness :
    (["s1"] : List String) ≠ [] ∧
    batchEvaluateSessions (fun _ => .returns (.num 1)) ["s1"] =
      .ok ⟨((["s1"] : List String).filter
              (evalSuccess (fun _ => .returns (.num 1)))).map
             (fun i => (i, evalValue (fun _ => .returns (.num 1)) i)),
           (["s1"] : List String).filter
             (fun i => !evalSuccess (fun _ => .returns (.num 1)) i),
           (["s1"] : List String).length,
           (((["s1"] : List String).filter
               (evalSuccess (fun _ => .returns (.num 1)))).length : ℚ) /
             (((["s1"] : List String).length : ℕ) : ℚ) * 100⟩ :=
  ⟨by decide,
   batchEvaluateSessions_completes (fun _ => .returns (.num 1)) ["s1"] (by decide)⟩

/-- **C10.**  `clean_response` discards any stripped response longer than
10 characters that contains "open" in any letter case — even a legitimate
value — and returns the `OPEN` sentinel instead of the content. -/
theorem cleanResponse_discards_open (response fieldPath : String)
    (hstrip : pyStrip response = response)
    (hlen : 10 < response.data.length)
    (hocc : occursIn ("OPEN".data) (response.data.map asciiUpper) = true) :
    cleanResponse response fieldPath = "OPEN" := by
  have hdata : pyStripList response.data = response.data :=
    congrArg String.data hstrip
  have hne : ¬ response = "" := by
    intro hr
    subst hr
    exact absurd hlen (by decide)
  have hne2 : ¬ pyStrip response = "" := by rw [hstrip]; exact hne
  unfold cleanResponse
  rw [if_neg (not_or.mpr ⟨hne, hne2⟩), hdata]
  exact if_pos ⟨hocc, hlen⟩

/-- Witness for the `clean_response` discard theorem: the legitimate
value "Experience with OpenCV" is thrown away. -/
theorem cleanResponse_discards_open_witness :
    10 < ("Experience with OpenCV" : String).data.length ∧
    cleanResponse "Experience with OpenCV"
      "jobProfile.technicalSkills.mandatory.skills" = "OPEN" :=
  ⟨by decide,
   cleanResponse_discards_open "Experience with OpenCV"
     "jobProfile.technicalSkills.mandatory.skills"
     (by decide) (by decide) (by decide)⟩

/-- Net brace depth is additive across concatenation. -/
lemma braceDepth_append (a b : List Char) :
    braceDepth (a ++ b) = braceDepth a + braceDepth b := by
  simp only [braceDepth, List.count_append, Nat.cast_add]
  ring

/-- A character other than the two braces contributes nothing to the
brace depth. -/
lemma braceDepth_single_ne (c : Char) (h1 : c ≠ braceOpen)
    (h2 : c ≠ braceClose) : braceDepth [c] = 0 := by
  have h3 : (c == braceOpen) = false := beq_eq_false_iff_ne.mpr h1
  have h4 : (c == braceClose) = false := beq_eq_false_iff_ne.mpr h2
  simp [braceDepth, List.count_cons, List.count_nil, h3, h4]

/-- The scan ignores a brace-free prefix while no object has started. -/
lemma jsonScanAux_skip :
    ∀ (pre : List Char), (∀ c ∈ pre, c ≠ braceOpen ∧ c ≠ braceClose) →
      ∀ (rest : List Char),
      jsonScanAux (pre ++ rest) 0 false [] = jsonScanAux rest 0 false [] := by
  intro pre
  induction pre with
  | nil => intro _ rest; rfl
  | cons c pre' ih =>
    intro hpre rest
    have hc := hpre c (List.mem_cons_self _ _)
    rw [List.cons_append]
    have step : jsonScanAux (c :: (pre' ++ rest)) 0 false [] =
        jsonScanAux (pre' ++ rest) 0 false [] := by
      simp [jsonScanAux, hc.1, hc.2]
    rw [step]
    exact ih (fun x hx => hpre x (List.mem_cons_of_mem _ hx)) rest

/-- Once inside an object whose proper non-empty prefixes all have
positive brace depth, the scan accumulates exactly the object's
characters and stops at its final closing brace, whatever follows. -/
lemma jsonScanAux_balanced (obj : List Char)
    (hbal : braceDepth obj = 0)
    (hpos : ∀ n, n < obj.length → 0 < n → 0 < braceDepth (obj.take n)) :
    ∀ (rest done post : List Char),
      obj = done ++ rest → done ≠ [] → rest ≠ [] →
      jsonScanAux (rest ++ post) (braceDepth done) true done = some obj := by
  intro rest
  induction rest with
  | nil => intro done post _ _ hr; exact absurd rfl hr
  | cons c rest' ih =>
    intro done post hobj hdone _
    have hdpos : 0 < braceDepth done := by
      have htake : obj.take done.length = done := by
        rw [hobj]; exact List.take_left done (c :: rest')
      have hlt : done.length < obj.length := by
        rw [hobj, List.length_append, List.length_cons]; omega
      have h0 : 0 < done.length := List.length_pos.mpr hdone
      have hh := hpos done.length hlt h0
      rwa [htake] at hh
    have hobj2 : obj = (done ++ [c]) ++ rest' := by
      rw [hobj, List.append_assoc, List.singleton_append]
    rw [List.cons_append]
    by_cases hco : c = braceOpen
    · subst hco
      have hd1 : braceDepth (done ++ [braceOpen]) = braceDepth done + 1 := by
        rw [braceDepth_append, show braceDepth [braceOpen] = 1 from by decide]
      have step : jsonScanAux (braceOpen :: (rest' ++ post)) (braceDepth done) true done =
          jsonScanAux (rest' ++ post) (braceDepth done + 1) true (done ++ [braceOpen]) := by
        simp [jsonScanAux]
      rw [step]
      by_cases hrn : rest' = []
      · exfalso
        rw [hrn, List.append_nil] at hobj2
        rw [hobj2, hd1] at hbal
        omega
      · rw [← hd1]
        exact ih (done ++ [braceOpen]) post hobj2 (by simp) hrn
    · by_cases hcc : c = braceClose
      · subst hcc
        have hd2 : braceDepth (done ++ [braceClose]) = braceDepth done - 1 := by
          rw [braceDepth_append, show braceDepth [braceClose] = -1 from by decide]
          ring
        have hno : ¬ (braceClose = braceOpen) := by decide
        by_cases hrn : rest' = []
        · have hobj' : obj = done ++ [braceClose] := by
            rw [hrn, List.append_nil] at hobj2; exact hobj2
          have hz : braceDepth done - 1 = 0 := by
            have hb := hbal
            rw [hobj', hd2] at hb
            omega
          have step : jsonScanAux (braceClose :: (rest' ++ post)) (braceDepth done) true done =
              some (done ++ [braceClose]) := by
            simp [jsonScanAux, hno, hz]
          rw [step, hobj']
        · have hdpos' : 0 < braceDepth (done ++ [braceClose]) := by
            have htake : obj.take (done ++ [braceClose]).length = done ++ [braceClose] := by
              rw [hobj2]; exact List.take_left _ _
            have hlt : (done ++ [braceClose]).length < obj.length := by
              rw [hobj2, List.length_append (done ++ [braceClose])]
              have hrp : 0 < rest'.length := List.length_pos.mpr hrn
              omega
            have hh := hpos (done ++ [braceClose]).length hlt (by simp)
            rwa [htake] at hh
          have hz' : ¬ (braceDepth done - 1 = 0) := by omega
          have step : jsonScanAux (braceClose :: (rest' ++ post)) (braceDepth done) true done =
              jsonScanAux (rest' ++ post) (braceDepth done - 1) true (done ++ [braceClose]) := by
            simp [jsonScanAux, hno, hz']
          rw [step, ← hd2]
          exact ih (done ++ [braceClose]) post hobj2 (by simp) hrn
      · have hd3 : braceDepth (done ++ [c]) = braceDepth done := by
          rw [braceDepth_append, braceDepth_single_ne c hco hcc]
          ring
        have step : jsonScanAux (c :: (rest' ++ post)) (braceDepth done) true done =
            jsonScanAux (rest' ++ post) (braceDepth done) true (done ++ [c]) := by
          simp [jsonScanAux, hco, hcc]
        by_cases hrn : rest' = []
        · exfalso
          rw [hrn, List.append_nil] at hobj2
          rw [hobj2, hd3] at hbal
          omega
        · rw [step, ← hd3]
          exact ih (done ++ [c]) post hobj2 (by simp) hrn

/-- **C1.**  `_extract_first_complete_json` on prose, followed by a
brace-balanced object (every proper non-empty prefix of the object has
positive brace depth, as holds for well-formed JSON whose string values
contain no unbalanced brace before the end), followed by arbitrary
trailing prose — possibly with stray unbalanced braces — returns exactly
the embedded object's text, provided the leading prose is brace-free. -/
theorem extractFirstCompleteJson_embedded (pre body post : List Char)
    (hpre : ∀ c ∈ pre, c ≠ braceOpen ∧ c ≠ braceClose)
    (hbal : braceDepth (braceOpen :: body) = 0)
    (hpos : ∀ n, n < (braceOpen :: body).length → 0 < n →
      0 < braceDepth ((braceOpen :: body).take n)) :
    extractFirstCompleteJson (String.mk (pre ++ (braceOpen :: body) ++ post)) =
      String.mk (braceOpen :: body) := by
  have hbody : body ≠ [] := by
    intro hb
    rw [hb] at hbal
    exact absurd hbal (by decide)
  have hscan : jsonScanAux (pre ++ (braceOpen :: body) ++ post) 0 false [] =
      some (braceOpen :: body) := by
    rw [List.append_assoc, jsonScanAux_skip pre hpre]
    have step : jsonScanAux ((braceOpen :: body) ++ post) 0 false [] =
        jsonScanAux (body ++ post) 1 true [braceOpen] := by
      rw [List.cons_append]
      simp [jsonScanAux]
    rw [step, show (1 : Int) = braceDepth [braceOpen] from by decide]
    exact jsonScanAux_balanced (braceOpen :: body) hbal hpos body [braceOpen]
      post rfl (by simp) hbody
  unfold extractFirstCompleteJson
  rw [show (String.mk (pre ++ (braceOpen :: body) ++ post)).data =
      pre ++ (braceOpen :: body) ++ post from rfl]
  rw [hscan]

/-- Witness for the extraction theorem: prose, then the object, then
trailing prose with a stray closing brace. -/
theorem extractFirstCompleteJson_embedded_witness :
    (∀ c ∈ ("Here is the evaluation: ".data),
      c ≠ braceOpen ∧ c ≠ braceClose) ∧
    extractFirstCompleteJson (String.mk ("Here is the evaluation: ".data ++
        (braceOpen :: ("\"overall_score\": 7".data ++ [braceClose])) ++
        (" Done. Stray ".data ++ [braceClose] ++ " after.".data))) =
      String.mk (braceOpen :: ("\"overall_score\": 7".data ++ [braceClose])) :=
  ⟨by decide,
   extractFirstCompleteJson_embedded _ _ _ (by decide) (by decide) (by decide)⟩

/-- A `Bool` that is not `false` is `true`. -/
lemma bool_ne_false (b : Bool) (h : ¬ b = false) : b = true := by
  cases b
  · exact absurd rfl h
  · rfl

/-- `occursIn` decides list-infix containment. -/
lemma occursIn_iff_substring (pat : List Char) :
    ∀ l, occursIn pat l = true ↔ pat <:+: l := by
  intro l
  induction l with
  | nil =>
    simp [occursIn, List.isPrefixOf_iff_prefix, List.prefix_nil, List.infix_nil]
  | cons c rest ih =>
    simp [occursIn, List.isPrefixOf_iff_prefix, ih, List.infix_cons_iff]

/-- A replacement whose pattern never occurs is the identity
(auxiliary form). -/
lemma replaceAllAux_of_not_occurs (p : Char) (ps rep : List Char) :
    ∀ l, occursIn (p :: ps) l = false → replaceAllAux p ps rep l = l := by
  intro l
  induction l with
  | nil => intro _; simp [replaceAllAux]
  | cons c cs ih =>
    intro h
    simp only [occursIn, Bool.or_eq_false_iff] at h
    simp only [replaceAllAux]
    rw [if_neg (by simp [h.1]), ih h.2]

/-- A replacement whose pattern never occurs is the identity. -/
lemma replaceAll_of_not_occurs (pat rep l : List Char) (hne : pat ≠ [])
    (h : occursIn pat l = false) : replaceAll pat rep l = l := by
  cases pat with
  | nil => exact absurd rfl hne
  | cons p ps => simpa [replaceAll] using replaceAllAux_of_not_occurs p ps rep l h

/-- A pattern containing `N/A` cannot occur in text free of `N/A`. -/
lemma not_occurs_of_na (s q : List Char)
    (h : occursIn ("N/A".data) s = false) (hq : ("N/A".data) <:+: q) :
    occursIn q s = false := by
  by_contra hcon
  have hcon' := bool_ne_false _ hcon
  rw [occursIn_iff_substring] at hcon'
  have h2 : ("N/A".data) <:+: s := hq.trans hcon'
  rw [← occursIn_iff_substring] at h2
  rw [h2] at h
  exact Bool.noConfusion h

/-- A one-character replacement is a character map. -/
lemma replaceAll_single_eq_map (c d : Char) :
    ∀ l, replaceAll [c] [d] l = l.map (fun x => if x = c then d else x) := by
  intro l
  induction l with
  | nil => simp [replaceAll, replaceAllAux]
  | cons x xs ih =>
    simp only [replaceAll] at ih ⊢
    simp only [replaceAllAux]
    by_cases hx : x = c
    · have hp : ([c].isPrefixOf (x :: xs)) = true := by
        subst hx; simp [List.isPrefixOf]
      rw [if_pos hp, List.length_nil, List.drop_zero, List.singleton_append,
        ih, List.map_cons, if_pos hx]
    · have hp : ([c].isPrefixOf (x :: xs)) = false := by
        simp [List.isPrefixOf, beq_eq_false_iff_ne.mpr (Ne.symm hx)]
      rw [if_neg (by simp [hp]), ih, List.map_cons, if_neg hx]

/-- The two single-character whitespace replacements compose to the
`nlToSpace` character map. -/
lemma replaceAll_nl_cr (l : List Char) :
    replaceAll ['\x0d'] [' '] (replaceAll ['\n'] [' '] l) = l.map nlToSpace := by
  rw [replaceAll_single_eq_map, replaceAll_single_eq_map, List.map_map]
  have hfun : ((fun x => if x = '\x0d' then ' ' else x) ∘
      (fun x => if x = '\n' then ' ' else x)) = nlToSpace := by
    funext x
    by_cases h1 : x = '\n'
    · subst h1; decide
    · by_cases h2 : x = '\x0d'
      · subst h2; decide
      · simp [Function.comp, nlToSpace, h1, h2]
  rw [hfun]

/-- `nlToSpace` is idempotent. -/
lemma nlToSpace_idem : nlToSpace ∘ nlToSpace = nlToSpace := by
  funext x
  by_cases h1 : x = '\n'
  · subst h1; decide
  · by_cases h2 : x = '\x0d'
    · subst h2; decide
    · simp [Function.comp, nlToSpace, h1, h2]

/-- A space-free pattern that prefixes the `nlToSpace` image prefixes the
original. -/
lemma isPrefixOf_map_nlToSpace :
    ∀ (pat : List Char), ' ' ∉ pat →
      ∀ l, pat.isPrefixOf (l.map nlToSpace) = true →
        pat.isPrefixOf l = true := by
  intro pat
  induction pat with
  | nil => intro _ l _; simp [List.isPrefixOf]
  | cons p ps ih =>
    intro hpat l h
    cases l with
    | nil => simp [List.isPrefixOf] at h
    | cons c cs =>
      simp only [List.map_cons, List.isPrefixOf, Bool.and_eq_true,
        beq_iff_eq] at h ⊢
      obtain ⟨h1, h2⟩ := h
      have hsp : p ≠ ' ' := fun hp => hpat (hp ▸ List.mem_cons_self _ _)
      refine ⟨?_, ih (fun hm => hpat (List.mem_cons_of_mem _ hm)) cs h2⟩
      by_cases hcn : c = '\n'
      · rw [hcn, show nlToSpace '\n' = ' ' from rfl] at h1
        exact absurd h1 hsp
      · by_cases hcr : c = '\x0d'
        · rw [hcr, show nlToSpace '\x0d' = ' ' from rfl] at h1
          exact absurd h1 hsp
        · rwa [show nlToSpace c = c from by simp [nlToSpace, hcn, hcr]] at h1

/-- A space-free pattern that occurs in the `nlToSpace` image occurs in
the original. -/
lemma occursIn_map_nlToSpace (pat : List Char) (hpat : ' ' ∉ pat) :
    ∀ l, occursIn pat (l.map nlToSpace) = true → occursIn pat l = true := by
  intro l
  induction l with
  | nil => intro h; simpa [List.map_nil] using h
  | cons c cs ih =>
    intro h
    simp only [List.map_cons, occursIn, Bool.or_eq_true] at h ⊢
    rcases h with h | h
    · exact Or.inl (isPrefixOf_map_nlToSpace pat hpat (c :: cs)
        (by simpa [List.map_cons] using h))
    · exact Or.inr (ih h)

/-- The whitespace replacements create no new occurrence of a space-free
pattern. -/
lemma not_occursIn_map_nlToSpace (pat : List Char) (hpat : ' ' ∉ pat)
    (l : List Char) (h : occursIn pat l = false) :
    occursIn pat (l.map nlToSpace) = false := by
  by_contra hcon
  rw [occursIn_map_nlToSpace pat hpat l (bool_ne_false _ hcon)] at h
  exact Bool.noConfusion h

/-- `nlToSpace` maps whitespace to whitespace and non-whitespace to
itself. -/
lemma isPyWs_nlToSpace (c : Char) : isPyWs (nlToSpace c) = isPyWs c := by
  by_cases h1 : c = '\n'
  · subst h1; decide
  · by_cases h2 : c = '\x0d'
    · subst h2; decide
    · simp [nlToSpace, h1, h2]

/-- Dropping leading whitespace commutes with the `nlToSpace` map. -/
lemma dropWhile_isPyWs_map (l : List Char) :
    (l.map nlToSpace).dropWhile isPyWs = (l.dropWhile isPyWs).map nlToSpace := by
  have hfun : (isPyWs ∘ nlToSpace) = isPyWs := by
    funext c; exact isPyWs_nlToSpace c
  rw [List.dropWhile_map, hfun]

/-- `nlToSpace` preserves equality with any character other than the
space, the newline and the carriage return. -/
lemma nlToSpace_eq_char (c t : Char) (h1 : t ≠ ' ') (h2 : t ≠ '\n')
    (h3 : t ≠ '\x0d') : nlToSpace c = t ↔ c = t := by
  constructor
  · intro h
    by_cases hn : c = '\n'
    · rw [hn, show nlToSpace '\n' = ' ' from rfl] at h
      exact absurd h.symm h1
    · by_cases hr : c = '\x0d'
      · rw [hr, show nlToSpace '\x0d' = ' ' from rfl] at h
        exact absurd h.symm h1
      · rwa [show nlToSpace c = c from by simp [nlToSpace, hn, hr]] at h
  · intro h
    subst h
    simp [nlToSpace, h2, h3]

/-- The whitespace replacements neither create nor destroy a
trailing-comma pattern. -/
lemma hasTrailingComma_map :
    ∀ l, hasTrailingComma (l.map nlToSpace) = hasTrailingComma l := by
  intro l
  induction l with
  | nil => rfl
  | cons c cs ih =>
    have hcomma : decide (nlToSpace c = ',') = decide (c = ',') :=
      decide_eq_decide.mpr
        (nlToSpace_eq_char c ',' (by decide) (by decide) (by decide))
    simp only [List.map_cons, hasTrailingComma, ih, dropWhile_isPyWs_map,
      hcomma]
    cases hd : cs.dropWhile isPyWs with
    | nil => rfl
    | cons b bs =>
      have hb1 : decide (nlToSpace b = braceClose) = decide (b = braceClose) :=
        decide_eq_decide.mpr
          (nlToSpace_eq_char b braceClose (by decide) (by decide) (by decide))
      have hb2 : decide (nlToSpace b = ']') = decide (b = ']') :=
        decide_eq_decide.mpr
          (nlToSpace_eq_char b ']' (by decide) (by decide) (by decide))
      simp only [List.map_cons, hb1, hb2]

/-- The trailing-comma fix is the identity on text with no
trailing-comma pattern. -/
lemma removeTrailingCommas_id :
    ∀ l, hasTrailingComma l = false → removeTrailingCommas l = l := by
  intro l
  induction l with
  | nil => intro _; simp [removeTrailingCommas]
  | cons c cs ih =>
    intro h
    simp only [hasTrailingComma, Bool.or_eq_false_iff] at h
    obtain ⟨h1, h2⟩ := h
    by_cases hc : c = ','
    · subst hc
      simp only [removeTrailingCommas, if_true]
      split
      next b rest' hd =>
        have hfalse : ¬ (b = braceClose ∨ b = ']') := by
          rw [hd] at h1
          simp only [decide_True, Bool.true_and, Bool.or_eq_false_iff,
            decide_eq_false_iff_not] at h1
          rintro (hb | hb)
          · exact h1.1 hb
          · exact h1.2 hb
        rw [if_neg hfalse, ih h2]
      next hd => rw [ih h2]
    · simp only [removeTrailingCommas]
      rw [if_neg hc, ih h2]

/-- On input free of `N/A` and of trailing commas, the sanitizer only
replaces newlines and carriage returns by spaces. -/
lemma cleanJsonResponse_clean (s : String)
    (hna : occursIn ("N/A".data) s.data = false)
    (htc : hasTrailingComma s.data = false) :
    cleanJsonResponse s = String.mk (s.data.map nlToSpace) := by
  have h1 : replaceAll ("\"N/A\"".data) ("null".data) s.data = s.data :=
    replaceAll_of_not_occurs _ _ _ (by decide)
      (not_occurs_of_na _ _ hna (by decide))
  have h2 : replaceAll (squoteChar :: 'N' :: '/' :: 'A' :: [squoteChar])
      ("null".data) s.data = s.data :=
    replaceAll_of_not_occurs _ _ _ (by decide)
      (not_occurs_of_na _ _ hna (by decide))
  have h3 : replaceAll (": N/A".data) (": null".data) s.data = s.data :=
    replaceAll_of_not_occurs _ _ _ (by decide)
      (not_occurs_of_na _ _ hna (by decide))
  have h4 : replaceAll (":N/A".data) (": null".data) s.data = s.data :=
    replaceAll_of_not_occurs _ _ _ (by decide)
      (not_occurs_of_na _ _ hna (by decide))
  have h6 : removeTrailingCommas (s.data.map nlToSpace) =
      s.data.map nlToSpace :=
    removeTrailingCommas_id _ (by rw [hasTrailingComma_map]; exact htc)
  simp only [cleanJsonResponse]
  rw [h1, h2, h3, h4, replaceAll_nl_cr, h6]

set_option maxHeartbeats 1000000 in
/-- **C8.**  `_clean_json_response` is idempotent on inputs already free
of `N/A` tokens and of trailing commas before a closing brace or
bracket: applying it twice produces the same output as applying it
once. -/
theorem cleanJsonResponse_idempotent (s : String)
    (hna : occursIn ("N/A".data) s.data = false)
    (htc : hasTrailingComma s.data = false) :
    cleanJsonResponse (cleanJsonResponse s) = cleanJsonResponse s := by
  have hs1 : cleanJsonResponse s = String.mk (s.data.map nlToSpace) :=
    cleanJsonResponse_clean s hna htc
  have hna' : occursIn ("N/A".data) (s.data.map nlToSpace) = false :=
    not_occursIn_map_nlToSpace _ (by decide) _ hna
  have htc' : hasTrailingComma (s.data.map nlToSpace) = false := by
    rw [hasTrailingComma_map]; exact htc
  have hs2 : cleanJsonResponse (String.mk (s.data.map nlToSpace)) =
      String.mk ((s.data.map nlToSpace).map nlToSpace) :=
    cleanJsonResponse_clean _ hna' htc'
  rw [hs1, hs2, List.map_map, nlToSpace_idem]

/-- Witness for the sanitizer idempotence theorem on a concrete clean
JSON object text. -/
theorem cleanJsonResponse_idempotent_witness :
    occursIn ("N/A".data) ("\x7b\"key\": \"value\"\x7d" : String).data = false ∧
    hasTrailingComma ("\x7b\"key\": \"value\"\x7d" : String).data = false ∧
    cleanJsonResponse (cleanJsonResponse "\x7b\"key\": \"value\"\x7d") =
      cleanJsonResponse "\x7b\"key\": \"value\"\x7d" :=
  ⟨by decide, by decide,
   cleanJsonResponse_idempotent "\x7b\"key\": \"value\"\x7d"
     (by decide) (by decide)⟩
